import Mathlib

set_option maxRecDepth 8000

/-!
Verification of the Smart-File-Backup-System replication engine.

This development shallowly embeds the Python sources under `src/` and proves
properties of the embedded definitions.  The embedding conventions are:

* The filesystem is a map from path strings to file nodes; a node records the
  file content (`none` when opening the file for reading raises, i.e. the
  read fails), its modification time and its size.  Directories are not
  tracked as nodes; the one directory-sensitive operation that matters to the
  claims (`os.makedirs`) is modelled through its failure mode of a regular
  file occupying the directory path.
* Pure Python functions become Lean functions; `try/except` blocks whose
  handler returns a value become total functions; exceptions that escape a
  public entry point are modelled with `Except`.
* The MD5 digest of `hashlib` is an opaque parameter `fhash : String → String`
  applied to file contents; every theorem quantifies over it.
* `os.path.join` is modelled for POSIX paths whose directory part does not
  end in a separator, and `os.path.relpath` for the case in which the path
  lies lexically beneath the base (the form produced by the watchers); the
  `except ValueError` branch of `get_relative_path` returns the path itself,
  as in the source.
-/

namespace SmartBackup

/-- `SyncMode` from `src/utils/constants.py`. -/
inductive SyncMode where
  | one_way
  | two_way
deriving DecidableEq, Repr

/-- `ConflictStrategy` from `src/utils/constants.py`. -/
inductive ConflictStrategy where
  | newest_wins
  | source_wins
  | target_wins
  | keep_both
  | ask_user
  | skip
deriving DecidableEq, Repr

/-- `TaskStatus` from `src/utils/constants.py`. -/
inductive TaskStatus where
  | stopped
  | running
  | paused
  | error
deriving DecidableEq, Repr

/-- `FileEventType` from `src/utils/constants.py`. -/
inductive FileEventType where
  | created
  | modified
  | deleted
  | moved
deriving DecidableEq, Repr

/-- `FileEvent` from `src/core/file_monitor.py`.  The `timestamp` field is
kept as an integer tick; nothing in the verified code reads it. -/
structure FileEvent where
  event_type : FileEventType
  src_path : String
  dst_path : Option String := none
  is_directory : Bool := false
  timestamp : Int := 0
deriving DecidableEq, Repr

/-- `SyncResult` from `src/core/sync_processor.py`.  `action` keeps the
source's string tags `copy`, `delete`, `move`, `skip`, `error`. -/
structure SyncResult where
  success : Bool
  action : String
  source_path : String
  target_path : Option String := none
  message : String := ""
  file_size : Int := 0
deriving DecidableEq, Repr

/-- A file node: content (`none` when reading raises), mtime and size, the
metadata consulted by `src/core/conflict_handler.py` and
`src/core/state_manager.py`. -/
structure FNode where
  content : Option String
  mtime : Int
  size : Int
deriving DecidableEq, Repr

/-- The filesystem model: `some node` when a regular file exists at the path,
`none` otherwise. -/
def MirrorFS : Type := String → Option FNode

/-- Point update of the filesystem model. -/
def MirrorFS.set (fs : MirrorFS) (p : String) (n : Option FNode) : MirrorFS :=
  fun q => if q = p then n else fs q

/-- `os.path.exists` on the model. -/
def pathExists (fs : MirrorFS) (p : String) : Bool :=
  (fs p).isSome

/-- The readable content of a file, `none` when the file is missing or the
read raises. -/
def readContent (fs : MirrorFS) (p : String) : Option String :=
  (fs p).bind (·.content)

/-- `get_file_hash` from `src/utils/file_utils.py` at the default `md5`
algorithm: digest the content on success, return `""` whenever the
`open`/`read` raises (the bare `except` clause). -/
def get_file_hash (fhash : String → String) (fs : MirrorFS) (p : String) : String :=
  match readContent fs p with
  | some c => fhash c
  | none => ""

/-- `get_file_mtime` from `src/utils/file_utils.py`: `os.path.getmtime`
wrapped so a missing file yields `None`. -/
def get_file_mtime (fs : MirrorFS) (p : String) : Option Int :=
  (fs p).map (·.mtime)

/-- `get_file_size` from `src/utils/file_utils.py`: `os.path.getsize` with
`0` on failure. -/
def get_file_size (fs : MirrorFS) (p : String) : Int :=
  match fs p with
  | some n => n.size
  | none => 0

/-- `os.path.join` for a POSIX directory that does not end in a separator;
Python's `join` with an empty first component returns the second. -/
def joinPath (d f : String) : String :=
  if d = "" then f else d ++ "/" ++ f

/-- `get_relative_path` from `src/utils/file_utils.py`, modelled for the case
`filepath` lies lexically beneath `base_path` (the shape the watchers
produce); any other input is returned unchanged, as the source's
`except ValueError` branch does. -/
def get_relative_path (p base : String) : String :=
  if (base.toList ++ ['/']).isPrefixOf p.toList then
    ⟨p.toList.drop (base.toList.length + 1)⟩
  else p

/-- `safe_copy_file` from `src/utils/file_utils.py` on the model: the copy
fails exactly when the source cannot be read (`shutil.copy2` raising); on
success the whole node is copied (`copy2` preserves metadata). -/
def safe_copy_file (fs : MirrorFS) (src dst : String) : Bool × MirrorFS :=
  match fs src with
  | some n =>
    match n.content with
    | some _ => (true, fs.set dst (some n))
    | none => (false, fs)
  | none => (false, fs)

/-- `safe_delete_file` from `src/utils/file_utils.py` on the model: removing
a file always succeeds, removing a missing path is a no-op success. -/
def safe_delete_file (fs : MirrorFS) (p : String) : Bool × MirrorFS :=
  (true, fs.set p none)

/-- A stored `FileState` from `src/core/state_manager.py`; the
`last_sync_time` string is omitted because no verified code reads it. -/
structure StateEntry where
  hash : String
  mtime : Int
  size : Int
deriving DecidableEq, Repr

/-- The per-task slice of the state store: relative path to `FileState`. -/
def StateStore : Type := String → Option StateEntry

/-- Point update of the state store. -/
def StateStore.set (st : StateStore) (rel : String) (e : StateEntry) : StateStore :=
  fun q => if q = rel then some e else st q

/-- `SyncProcessor._update_state` from `src/core/sync_processor.py`: builds a
`FileState` from `os.path.getmtime`/`os.path.getsize` of `file_path` and
stores it; the surrounding `try/except` leaves the store untouched when the
stat calls raise, i.e. when the file is missing. -/
def update_state (st : StateStore) (fs : MirrorFS) (rel fileHash filePath : String) :
    StateStore :=
  match fs filePath with
  | some n => st.set rel ⟨fileHash, n.mtime, n.size⟩
  | none => st

/-- Index of the last occurrence of `c` in `cs`, `-1` when absent, mirroring
Python's `str.rfind`. -/
def rfindChar (c : Char) (cs : List Char) : Int :=
  cs.enum.foldl (fun acc ix => if ix.2 = c then (ix.1 : Int) else acc) (-1)

/-- `os.path.splitext` (POSIX): split at the last dot that comes after the
last separator, unless every character between the separator and that dot is
itself a dot (so `.bashrc` keeps its name whole). -/
def splitext (p : String) : String × String :=
  let cs := p.toList
  let sepI := rfindChar '/' cs
  let dotI := rfindChar '.' cs
  let hasName := cs.enum.any
    (fun ix => decide (sepI < (ix.1 : Int)) && decide ((ix.1 : Int) < dotI) && decide (ix.2 ≠ '.'))
  if sepI < dotI ∧ hasName = true then
    (⟨cs.take dotI.toNat⟩, ⟨cs.drop dotI.toNat⟩)
  else (p, "")

/-- `os.path.basename` (POSIX): the part after the last separator. -/
def basename (p : String) : String :=
  let cs := p.toList
  let sepI := rfindChar '/' cs
  ⟨cs.drop (sepI + 1).toNat⟩

/-- `os.path.dirname` (POSIX), modelled for paths whose directory part is not
the filesystem root: the part before the last separator, `""` when there is
none. -/
def dirname (p : String) : String :=
  let cs := p.toList
  let sepI := rfindChar '/' cs
  if sepI < 0 then "" else ⟨cs.take sepI.toNat⟩

/-- Zero-pad the decimal representation of `n` to `w` digits, as `strftime`
does for each field. -/
def padNat (w n : ℕ) : String :=
  let s := Nat.repr n
  ⟨List.replicate (w - s.length) '0'⟩ ++ s

/-- A wall-clock instant, the input of `datetime.strftime`. -/
structure DateTime6 where
  year : ℕ
  month : ℕ
  day : ℕ
  hour : ℕ
  minute : ℕ
  second : ℕ
deriving DecidableEq, Repr

/-- `datetime.strftime("%Y%m%d%H%M%S")`: the `YYYYMMDDhhmmss` stamp used for
conflict-backup names in `src/core/sync_processor.py`. -/
def strftimeYmdHMS (t : DateTime6) : String :=
  padNat 4 t.year ++ padNat 2 t.month ++ padNat 2 t.day ++
    padNat 2 t.hour ++ padNat 2 t.minute ++ padNat 2 t.second

/-- The conflict-backup name `<name>.conflict.<timestamp><ext>` built in the
both-changed branch of `SyncProcessor._sync_file_with_hash`. -/
def conflictName (targetFile : String) (ts : DateTime6) : String :=
  (splitext targetFile).1 ++ ".conflict." ++ strftimeYmdHMS ts ++ (splitext targetFile).2

/-- The `version = 1; while exists: version += 1` search of
`generate_versioned_filename`; `fuel` bounds the walk (the source relies on
the filesystem being finite). -/
def findVersion (occupied : ℕ → Bool) : ℕ → ℕ → ℕ
  | 0, v => v
  | f + 1, v => if occupied v then findVersion occupied f (v + 1) else v

/-- The candidate path `<dir>/<name>_v<N><ext>` probed by
`generate_versioned_filename` in `src/utils/file_utils.py`. -/
def versionedCandidate (filepath : String) (v : ℕ) : String :=
  let d := dirname filepath
  let fn := basename filepath
  let ne := splitext fn
  joinPath d (ne.1 ++ "_v" ++ Nat.repr v ++ ne.2)

/-- `generate_versioned_filename(filepath)` from `src/utils/file_utils.py`
with `version=None`: the first version number from 1 up whose candidate path
does not exist. -/
def generate_versioned_filename (fs : MirrorFS) (fuel : ℕ) (filepath : String) : String :=
  versionedCandidate filepath
    (findVersion (fun v => pathExists fs (versionedCandidate filepath v)) fuel 1)

/-- `ConflictHandler.check_conflict` from `src/core/conflict_handler.py`:
no conflict when either file is absent or when mtime and size both match. -/
def check_conflict (fs : MirrorFS) (source target : String) : Bool :=
  if pathExists fs target = false then false
  else if pathExists fs source = false then false
  else if get_file_mtime fs source = get_file_mtime fs target ∧
          get_file_size fs source = get_file_size fs target then false
  else true

/-- `ConflictHandler.resolve` from `src/core/conflict_handler.py` for a
settled strategy (the `ask_user` delegation is applied one level by the
caller below; the source would recurse on a callback that answers `ask_user`
again, a case no claim exercises). -/
def resolveStrategy (fs : MirrorFS) (fuel : ℕ) (source target : String) :
    ConflictStrategy → String × Option String × String
  | .skip => ("skip", none, "根据策略跳过冲突文件")
  | .source_wins => ("copy", some target, "源文件覆盖目标文件")
  | .target_wins => ("skip", none, "保留目标文件")
  | .newest_wins =>
    match get_file_mtime fs source, get_file_mtime fs target with
    | none, _ => ("skip", none, "无法获取文件时间")
    | _, none => ("skip", none, "无法获取文件时间")
    | some sm, some tm =>
      if tm < sm then ("copy", some target, "源文件较新")
      else ("skip", none, "目标文件较新或相同")
  | .keep_both =>
    let vp := generate_versioned_filename fs fuel target
    ("keep_both", some vp, "保留双方,源文件保存为 " ++ basename vp)
  | .ask_user => ("skip", none, "需要用户决策但未设置回调")

/-- `ConflictHandler.resolve` including the one-step `ask_user` delegation to
the injected callback. -/
def resolve (fs : MirrorFS) (fuel : ℕ) (userCallback : Option ConflictStrategy)
    (source target : String) (strategy : ConflictStrategy) :
    String × Option String × String :=
  match strategy, userCallback with
  | .ask_user, some s => resolveStrategy fs fuel source target s
  | .ask_user, none => ("skip", none, "需要用户决策但未设置回调")
  | s, _ => resolveStrategy fs fuel source target s

/-- A trace entry for each filesystem or state-store mutation a sync routine
performed, in execution order. -/
inductive FsEffect where
  | copyFile (src dst : String)
  | moveFile (src dst : String)
  | deleteFile (p : String)
  | makeDirs (p : String)
  | updState (rel h : String)
deriving DecidableEq, Repr

/-- The outcome of one per-file routine: its `SyncResult`, the filesystem and
state store after it ran, and the mutations it performed in order. -/
structure SyncOutcome where
  result : SyncResult
  fs : MirrorFS
  st : StateStore
  effects : List FsEffect

/-- The effect trace `_update_state` contributes: a state write when the
stat calls succeed, nothing when they raise. -/
def updStateEffects (fs : MirrorFS) (rel h filePath : String) : List FsEffect :=
  match fs filePath with
  | some _ => [.updState rel h]
  | none => []

/-- Static configuration of a `SyncProcessor`
(`src/core/sync_processor.py`), restricted to the fields the per-file logic
reads.  `should_process` abstracts `match_file_patterns` over the configured
include/exclude globs; `fhash` abstracts the MD5 digest; `fuel` bounds the
versioned-name search of the conflict handler. -/
structure ProcCfg where
  fhash : String → String
  sync_mode : SyncMode
  conflict_strategy : ConflictStrategy
  user_callback : Option ConflictStrategy := none
  should_process : String → Bool
  task_id : String
  compare_method : String
  fuel : ℕ := 1000

/-- `SyncProcessor._sync_file_with_hash` from `src/core/sync_processor.py`
(lines 129-207), translated branch by branch.  `shutil.move` of the conflict
backup fails exactly when the target file is missing; `safe_copy_file` fails
exactly when the source cannot be read. -/
def sync_file_with_hash (cfg : ProcCfg) (sourceBase targetBase : String)
    (ts : DateTime6) (fs : MirrorFS) (st : StateStore) (sourceFile : String) :
    SyncOutcome :=
  let relPath := get_relative_path sourceFile sourceBase
  let targetFile := joinPath targetBase relPath
  if cfg.should_process sourceFile = false then
    ⟨⟨true, "skip", sourceFile, some targetFile, "文件被过滤规则排除", 0⟩, fs, st, []⟩
  else
    let srcHash := get_file_hash cfg.fhash fs sourceFile
    let lastHash : Option String := (st relPath).map (·.hash)
    let targetExists := pathExists fs targetFile
    let tgtHash : Option String :=
      if targetExists then some (get_file_hash cfg.fhash fs targetFile) else none
    let srcChanged : Bool := decide (some srcHash ≠ lastHash)
    let tgtChanged : Bool := !targetExists || decide (tgtHash ≠ lastHash)
    if srcChanged = false ∧ tgtChanged = false then
      ⟨⟨true, "skip", sourceFile, some targetFile, "文件已是最新", 0⟩, fs, st, []⟩
    else if srcChanged = true ∧ tgtChanged = false then
      let cp := safe_copy_file fs sourceFile targetFile
      if cp.1 then
        ⟨⟨true, "copy", sourceFile, some targetFile, "源文件变更，更新目标",
            get_file_size fs sourceFile⟩,
          cp.2, update_state st cp.2 relPath srcHash sourceFile,
          .copyFile sourceFile targetFile :: updStateEffects cp.2 relPath srcHash sourceFile⟩
      else
        ⟨⟨false, "error", sourceFile, some targetFile, "复制失败", 0⟩, fs, st, []⟩
    else if srcChanged = false ∧ tgtChanged = true then
      if cfg.sync_mode = SyncMode.two_way then
        ⟨⟨true, "skip", sourceFile, some targetFile, "目标变更，等待反向同步", 0⟩, fs, st, []⟩
      else
        let cp := safe_copy_file fs sourceFile targetFile
        if cp.1 then
          ⟨⟨true, "copy", sourceFile, some targetFile, "纠正目标变更，还原为源版本",
              get_file_size fs sourceFile⟩,
            cp.2, update_state st cp.2 relPath srcHash sourceFile,
            .copyFile sourceFile targetFile :: updStateEffects cp.2 relPath srcHash sourceFile⟩
        else
          ⟨⟨false, "error", sourceFile, some targetFile, "还原失败", 0⟩, fs, st, []⟩
    else
      if tgtHash = some srcHash then
        ⟨⟨true, "skip", sourceFile, some targetFile, "双方变更但内容一致", 0⟩,
          fs, update_state st fs relPath srcHash sourceFile,
          updStateEffects fs relPath srcHash sourceFile⟩
      else
        let conflictFile := conflictName targetFile ts
        match fs targetFile with
        | none =>
          ⟨⟨false, "error", sourceFile, some targetFile, "备份冲突文件失败", 0⟩, fs, st, []⟩
        | some tn =>
          let fs1 := (fs.set conflictFile (some tn)).set targetFile none
          let cp := safe_copy_file fs1 sourceFile targetFile
          if cp.1 then
            ⟨⟨true, "copy", sourceFile, some targetFile,
                "双方冲突，已备份旧版至 " ++ basename conflictFile,
                get_file_size fs1 sourceFile⟩,
              cp.2, update_state st cp.2 relPath srcHash sourceFile,
              .moveFile targetFile conflictFile :: .copyFile sourceFile targetFile ::
                updStateEffects cp.2 relPath srcHash sourceFile⟩
          else
            ⟨⟨false, "error", sourceFile, some targetFile, "解决冲突失败", 0⟩,
              fs1, st, [.moveFile targetFile conflictFile]⟩

/-- The mtime-method body of `SyncProcessor._sync_file` (the code after the
hash dispatch, lines 224-331). -/
def sync_file_mtime (cfg : ProcCfg) (sourceBase targetBase : String)
    (fs : MirrorFS) (st : StateStore) (sourceFile : String) : SyncOutcome :=
  let relPath := get_relative_path sourceFile sourceBase
  let targetFile := joinPath targetBase relPath
  if cfg.should_process sourceFile = false then
    ⟨⟨true, "skip", sourceFile, some targetFile, "文件被过滤规则排除", 0⟩, fs, st, []⟩
  else if pathExists fs targetFile = false then
    let cp := safe_copy_file fs sourceFile targetFile
    if cp.1 then
      ⟨⟨true, "copy", sourceFile, some targetFile, "文件已复制",
          get_file_size fs sourceFile⟩, cp.2, st, [.copyFile sourceFile targetFile]⟩
    else
      ⟨⟨false, "error", sourceFile, some targetFile, "复制失败", 0⟩, fs, st, []⟩
  else if check_conflict fs sourceFile targetFile then
    let r := resolve fs cfg.fuel cfg.user_callback sourceFile targetFile cfg.conflict_strategy
    if r.1 = "copy" then
      let dst := r.2.1.getD targetFile
      let cp := safe_copy_file fs sourceFile dst
      if cp.1 then
        ⟨⟨true, "copy", sourceFile, some dst, r.2.2, get_file_size fs sourceFile⟩,
          cp.2, st, [.copyFile sourceFile dst]⟩
      else
        ⟨⟨false, "error", sourceFile, some targetFile, "复制失败", 0⟩, fs, st, []⟩
    else if r.1 = "keep_both" then
      let dst := r.2.1.getD targetFile
      let cp := safe_copy_file fs sourceFile dst
      if cp.1 then
        ⟨⟨true, "copy", sourceFile, some dst, r.2.2, get_file_size fs sourceFile⟩,
          cp.2, st, [.copyFile sourceFile dst]⟩
      else
        ⟨⟨false, "error", sourceFile, some dst, "保留双方失败", 0⟩, fs, st, []⟩
    else
      ⟨⟨true, "skip", sourceFile, some targetFile, r.2.2, 0⟩, fs, st, []⟩
  else
    ⟨⟨true, "skip", sourceFile, some targetFile, "文件已是最新", 0⟩, fs, st, []⟩

/-- `SyncProcessor._sync_file`: dispatch to the hash logic when
`compare_method == "hash"` and a task id is set, else the mtime logic. -/
def sync_file (cfg : ProcCfg) (sourceBase targetBase : String) (ts : DateTime6)
    (fs : MirrorFS) (st : StateStore) (sourceFile : String) : SyncOutcome :=
  if cfg.compare_method = "hash" ∧ cfg.task_id ≠ "" then
    sync_file_with_hash cfg sourceBase targetBase ts fs st sourceFile
  else
    sync_file_mtime cfg sourceBase targetBase fs st sourceFile

/-- `SyncProcessor._sync_deletion` from `src/core/sync_processor.py`
(lines 333-373), exactly as it stands in `src/`: remove the mirror when it
exists, report a skip when it does not.  No `disable_delete` consultation
appears in this source. -/
def sync_deletion_src (sourceBase targetBase : String) (fs : MirrorFS)
    (deletedPath : String) : SyncResult × MirrorFS :=
  let relPath := get_relative_path deletedPath sourceBase
  let targetFile := joinPath targetBase relPath
  if pathExists fs targetFile then
    let del := safe_delete_file fs targetFile
    (⟨true, "delete", deletedPath, some targetFile, "文件已删除", 0⟩, del.2)
  else
    (⟨true, "skip", deletedPath, some targetFile, "目标文件不存在", 0⟩, fs)

/-- Modelled from the spec: the deletion handler of the newer
`SyncProcessor`, the one `TaskRunner.start` constructs with
`disable_delete=self.task.disable_delete` (`src/core/task_manager.py` line
486).  That processor version is not under `src/` (the `SyncProcessor`
there accepts no `disable_delete` argument); per the spec, "deleted: if
`disable_delete` → skip with reason; else remove mirror at rel path; absent
mirror ⇒ skip".  The non-guarded part is the source `_sync_deletion`
above. -/
def sync_deletion (disable_delete : Bool) (sourceBase targetBase : String)
    (fs : MirrorFS) (deletedPath : String) : SyncResult × MirrorFS :=
  if disable_delete then
    (⟨true, "skip", deletedPath,
        some (joinPath targetBase (get_relative_path deletedPath sourceBase)),
        "删除操作已被禁用", 0⟩, fs)
  else
    sync_deletion_src sourceBase targetBase fs deletedPath

/-- `safe_move_file` from `src/utils/file_utils.py` on the model:
`shutil.move` fails (and the `except` returns `(False, err)`) exactly when
the source entry is missing; on success the node moves. -/
def safe_move_file (fs : MirrorFS) (src dst : String) : Bool × MirrorFS :=
  match fs src with
  | none => (false, fs)
  | some n => (true, (fs.set dst (some n)).set src none)

/-- `os.makedirs(path, exist_ok=True)` on the model: directories are not
tracked, so creation succeeds and changes nothing — except when a regular
file occupies the path, in which case `FileExistsError` is raised even with
`exist_ok=True`.  (Other `OSError`s, e.g. permissions, escape the same
way.) -/
def makedirs (fs : MirrorFS) (p : String) : Except String MirrorFS :=
  if (fs p).isSome then .error "FileExistsError" else .ok fs

/-- `SyncProcessor._sync_directory_move` (lines 375-423).  Directories are
not nodes of the model, so the subtree move is represented by its single
path entry; what matters to the claims is that every failure is caught and
returned as a result. -/
def sync_directory_move (sourceBase targetBase : String) (fs : MirrorFS)
    (srcPath dstPath : String) : SyncResult × MirrorFS :=
  let targetSrc := joinPath targetBase (get_relative_path srcPath sourceBase)
  let targetDst := joinPath targetBase (get_relative_path dstPath sourceBase)
  if pathExists fs targetSrc = false then
    (⟨true, "skip", srcPath, some targetDst, "目标源目录不存在", 0⟩, fs)
  else
    let fs1 := if pathExists fs targetDst then (safe_delete_file fs targetDst).2 else fs
    let mv := safe_move_file fs1 targetSrc targetDst
    if mv.1 then
      (⟨true, "move", srcPath, some targetDst, "文件夹重命名成功", 0⟩, mv.2)
    else
      (⟨false, "error", srcPath, some targetDst, "文件夹移动失败", 0⟩, fs1)

/-- `SyncProcessor._sync_directory_move_reverse` (lines 425-469). -/
def sync_directory_move_reverse (sourceBase targetBase : String) (fs : MirrorFS)
    (srcPath dstPath : String) : SyncResult × MirrorFS :=
  let sourceSrc := joinPath sourceBase (get_relative_path srcPath targetBase)
  let sourceDst := joinPath sourceBase (get_relative_path dstPath targetBase)
  if pathExists fs sourceSrc = false then
    (⟨true, "skip", srcPath, some sourceDst, "源目录不存在", 0⟩, fs)
  else
    let fs1 := if pathExists fs sourceDst then (safe_delete_file fs sourceDst).2 else fs
    let mv := safe_move_file fs1 sourceSrc sourceDst
    if mv.1 then
      (⟨true, "move", srcPath, some sourceDst, "反向文件夹重命名成功", 0⟩, mv.2)
    else
      (⟨false, "error", srcPath, some sourceDst, "反向文件夹移动失败", 0⟩, fs1)

/-- One target's slice of `SyncProcessor.process_event` (lines 483-516): the
per-event dispatch.  The created-directory branch calls `os.makedirs`
directly, with no `try/except` around it in the source, so its exception
escapes — hence the `Except` codomain. -/
def process_event_target (cfg : ProcCfg) (sourceBase : String) (ts : DateTime6)
    (event : FileEvent) (targetPath : String) (fs : MirrorFS) (st : StateStore) :
    Except String (List SyncResult × MirrorFS × StateStore) :=
  match event.event_type with
  | .created =>
    if event.is_directory = false then
      let o := sync_file cfg sourceBase targetPath ts fs st event.src_path
      .ok ([o.result], o.fs, o.st)
    else
      let targetDir := joinPath targetPath (get_relative_path event.src_path sourceBase)
      match makedirs fs targetDir with
      | .ok fs1 => .ok ([], fs1, st)
      | .error e => .error e
  | .modified =>
    if event.is_directory = false then
      let o := sync_file cfg sourceBase targetPath ts fs st event.src_path
      .ok ([o.result], o.fs, o.st)
    else .ok ([], fs, st)
  | .deleted =>
    let d := sync_deletion_src sourceBase targetPath fs event.src_path
    .ok ([d.1], d.2, st)
  | .moved =>
    match event.dst_path with
    | none => .ok ([], fs, st)
    | some dst =>
      if event.is_directory then
        let m := sync_directory_move sourceBase targetPath fs event.src_path dst
        .ok ([m.1], m.2, st)
      else
        let d := sync_deletion_src sourceBase targetPath fs event.src_path
        let o := sync_file cfg sourceBase targetPath ts d.2 st dst
        .ok ([d.1, o.result], o.fs, o.st)

/-- The fold of `process_event` over the target list, threading filesystem
and state and propagating an escaped exception. -/
def process_event_go (cfg : ProcCfg) (sourceBase : String) (ts : DateTime6)
    (event : FileEvent) : List String → MirrorFS → StateStore →
    Except String (List SyncResult × MirrorFS × StateStore)
  | [], fs, st => .ok ([], fs, st)
  | t :: rest, fs, st =>
    match process_event_target cfg sourceBase ts event t fs st with
    | .error e => .error e
    | .ok (rs, fs1, st1) =>
      match process_event_go cfg sourceBase ts event rest fs1 st1 with
      | .error e => .error e
      | .ok (rs2, fs2, st2) => .ok (rs ++ rs2, fs2, st2)

/-- `SyncProcessor.process_event` (lines 471-532).  The statistics block at
the end mutates counters only and is omitted. -/
def process_event (cfg : ProcCfg) (sourceBase : String) (targets : List String)
    (ts : DateTime6) (fs : MirrorFS) (st : StateStore) (event : FileEvent) :
    Except String (List SyncResult × MirrorFS × StateStore) :=
  process_event_go cfg sourceBase ts event targets fs st

/-- `SyncProcessor._sync_file_reverse_with_hash` (lines 536-567): copy the
target back to the source only when the target changed and the source did
not; every other combination is a skip. -/
def sync_file_reverse_with_hash (cfg : ProcCfg) (sourceBase targetBase : String)
    (fs : MirrorFS) (st : StateStore) (targetFile : String) : SyncOutcome :=
  let relPath := get_relative_path targetFile targetBase
  let sourceFile := joinPath sourceBase relPath
  if cfg.should_process targetFile = false then
    ⟨⟨true, "skip", targetFile, some sourceFile, "文件被过滤规则排除", 0⟩, fs, st, []⟩
  else
    let tgtHash := get_file_hash cfg.fhash fs targetFile
    let lastHash : Option String := (st relPath).map (·.hash)
    let sourceExists := pathExists fs sourceFile
    let srcHash : Option String :=
      if sourceExists then some (get_file_hash cfg.fhash fs sourceFile) else none
    let tgtChanged : Bool := decide (some tgtHash ≠ lastHash)
    let srcChanged : Bool := !sourceExists || decide (srcHash ≠ lastHash)
    if tgtChanged = true ∧ srcChanged = false then
      let cp := safe_copy_file fs targetFile sourceFile
      if cp.1 then
        ⟨⟨true, "copy", targetFile, some sourceFile, "反向同步：目标变更，更新源",
            get_file_size fs targetFile⟩,
          cp.2, update_state st cp.2 relPath tgtHash targetFile,
          .copyFile targetFile sourceFile :: updStateEffects cp.2 relPath tgtHash targetFile⟩
      else
        ⟨⟨false, "error", targetFile, some sourceFile, "反向同步失败", 0⟩, fs, st, []⟩
    else
      ⟨⟨true, "skip", targetFile, some sourceFile, "跳过（已在正向同步处理或无变更）", 0⟩,
        fs, st, []⟩

/-- The mtime-method body of `SyncProcessor._sync_file_reverse`
(lines 583-668). -/
def sync_file_reverse_mtime (cfg : ProcCfg) (sourceBase targetBase : String)
    (fs : MirrorFS) (st : StateStore) (targetFile : String) : SyncOutcome :=
  let relPath := get_relative_path targetFile targetBase
  let sourceFile := joinPath sourceBase relPath
  if cfg.should_process targetFile = false then
    ⟨⟨true, "skip", targetFile, some sourceFile, "文件被过滤规则排除", 0⟩, fs, st, []⟩
  else if pathExists fs sourceFile = false then
    let cp := safe_copy_file fs targetFile sourceFile
    if cp.1 then
      ⟨⟨true, "copy", targetFile, some sourceFile, "反向同步：文件已复制到源",
          get_file_size fs targetFile⟩, cp.2, st, [.copyFile targetFile sourceFile]⟩
    else
      ⟨⟨false, "error", targetFile, some sourceFile, "反向复制失败", 0⟩, fs, st, []⟩
  else if check_conflict fs targetFile sourceFile then
    let r := resolve fs cfg.fuel cfg.user_callback targetFile sourceFile cfg.conflict_strategy
    if r.1 = "copy" then
      let dst := r.2.1.getD sourceFile
      let cp := safe_copy_file fs targetFile dst
      if cp.1 then
        ⟨⟨true, "copy", targetFile, some dst, "反向同步：" ++ r.2.2,
            get_file_size fs targetFile⟩, cp.2, st, [.copyFile targetFile dst]⟩
      else
        ⟨⟨false, "error", targetFile, some sourceFile, "反向复制失败", 0⟩, fs, st, []⟩
    else
      ⟨⟨true, "skip", targetFile, some sourceFile, "反向同步：" ++ r.2.2, 0⟩, fs, st, []⟩
  else
    ⟨⟨true, "skip", targetFile, some sourceFile, "文件已是最新", 0⟩, fs, st, []⟩

/-- `SyncProcessor._sync_file_reverse`: hash dispatch then mtime body. -/
def sync_file_reverse (cfg : ProcCfg) (sourceBase targetBase : String)
    (fs : MirrorFS) (st : StateStore) (targetFile : String) : SyncOutcome :=
  if cfg.compare_method = "hash" ∧ cfg.task_id ≠ "" then
    sync_file_reverse_with_hash cfg sourceBase targetBase fs st targetFile
  else
    sync_file_reverse_mtime cfg sourceBase targetBase fs st targetFile

/-- `SyncProcessor._sync_deletion_reverse` (lines 670-710). -/
def sync_deletion_reverse (sourceBase targetBase : String) (fs : MirrorFS)
    (deletedPath : String) : SyncResult × MirrorFS :=
  let relPath := get_relative_path deletedPath targetBase
  let sourceFile := joinPath sourceBase relPath
  if pathExists fs sourceFile then
    let del := safe_delete_file fs sourceFile
    (⟨true, "delete", deletedPath, some sourceFile, "反向同步：源文件已删除", 0⟩, del.2)
  else
    (⟨true, "skip", deletedPath, some sourceFile, "源文件不存在", 0⟩, fs)

/-- `SyncProcessor.process_reverse_event` (lines 712-775): two-way only;
the created-directory branch again calls `os.makedirs` unguarded (line 737),
so its exception escapes. -/
def process_reverse_event (cfg : ProcCfg) (sourceBase : String) (targetBase : String)
    (fs : MirrorFS) (st : StateStore) (event : FileEvent) :
    Except String (List SyncResult × MirrorFS × StateStore) :=
  if cfg.sync_mode ≠ SyncMode.two_way then .ok ([], fs, st)
  else
    match event.event_type with
    | .created =>
      if event.is_directory = false then
        let o := sync_file_reverse cfg sourceBase targetBase fs st event.src_path
        .ok ([o.result], o.fs, o.st)
      else
        let sourceDir := joinPath sourceBase (get_relative_path event.src_path targetBase)
        match makedirs fs sourceDir with
        | .ok fs1 => .ok ([], fs1, st)
        | .error e => .error e
    | .modified =>
      if event.is_directory = false then
        let o := sync_file_reverse cfg sourceBase targetBase fs st event.src_path
        .ok ([o.result], o.fs, o.st)
      else .ok ([], fs, st)
    | .deleted =>
      let d := sync_deletion_reverse sourceBase targetBase fs event.src_path
      .ok ([d.1], d.2, st)
    | .moved =>
      match event.dst_path with
      | none => .ok ([], fs, st)
      | some dst =>
        if event.is_directory then
          let m := sync_directory_move_reverse sourceBase targetBase fs event.src_path dst
          .ok ([m.1], m.2, st)
        else
          let d := sync_deletion_reverse sourceBase targetBase fs event.src_path
          let o := sync_file_reverse cfg sourceBase targetBase d.2 st dst
          .ok ([d.1, o.result], o.fs, o.st)

/-- `OperationType` from `src/core/operation_queue.py`. -/
inductive OperationType where
  | copy_file
  | delete_file
  | full_sync
deriving DecidableEq, Repr

/-- A queued `FileOperation` from `src/core/operation_queue.py`, restricted
to the fields `execute_batch` fills (`id`, timestamps and status are
bookkeeping assigned inside `add_operation`). -/
structure Operation where
  op_type : OperationType
  source : String
  target : String
  task_id : String
  task_name : String
deriving DecidableEq, Repr

/-- The task fields `TaskRunner`'s batch path reads
(`src/core/task_manager.py`, `BackupTask`). -/
structure TaskCfg where
  id : String
  name : String
  source_path : String
  target_paths : List String
  safety_threshold : ℕ
deriving Repr

/-- One buffered tuple `(event, is_reverse, target_base)` as
`TaskRunner._add_to_batch` stores it (well-typed shape; the mistyped tuples
the swapped target-watcher lambda produces are treated separately below). -/
abbrev BatchItem : Type := FileEvent × Bool × Option String

/-- The translation of one batch item into queue operations, as the loop
body of `TaskRunner.execute_batch` (lines 213-279) writes it: deletions map
to `DELETE_FILE`, everything else to `COPY_FILE`; forward items fan out
over all target paths, reverse items resolve against the task's source.
CAUTION: in the program this loop never runs — `execute_batch` first
executes `from utils.constants import FileEventType, FileEvent` (line 204)
and `utils/constants.py` defines no `FileEvent`, so every call with a
non-empty batch raises `ImportError` before reaching the loop (see
`execute_batch` below).  The loop body is embedded because its opening
`isinstance(event, FileEvent)` screen is the statement that would silently
drop the mistyped tuples the swapped target-watcher callback produces
(see `target_watcher_callback` / `translateItemPy`). -/
def translateItem (t : TaskCfg) (it : BatchItem) : List Operation :=
  let event := it.1
  let is_reverse := it.2.1
  let target_base := it.2.2.getD ""
  let isDelete := event.event_type = FileEventType.deleted
  if is_reverse then
    if isDelete then
      let source := joinPath t.source_path (get_relative_path event.src_path target_base)
      if source ≠ "" then [⟨.delete_file, source, "", t.id, t.name⟩] else []
    else
      let target := joinPath t.source_path (get_relative_path event.src_path target_base)
      if event.src_path ≠ "" then [⟨.copy_file, event.src_path, target, t.id, t.name⟩] else []
  else
    if isDelete then
      t.target_paths.map (fun tp =>
        ⟨.delete_file, joinPath tp (get_relative_path event.src_path t.source_path),
          "", t.id, t.name⟩)
    else
      t.target_paths.map (fun tp =>
        ⟨.copy_file, event.src_path,
          joinPath tp (get_relative_path event.src_path t.source_path), t.id, t.name⟩)

/-- `TaskRunner.execute_batch` (lines 197-285) as it actually runs: an
empty batch logs a warning and returns; a non-empty batch executes
`from utils.constants import FileEventType, FileEvent` (line 204), and
`utils/constants.py` defines no `FileEvent` (the class lives in
`core/file_monitor.py`; there are no re-exports), so the import raises
`ImportError` on every such call — before the translation loop and before
`operation_queue.add_batch_operations`.  Result: the operations handed to
the queue (always none) paired with the escaped exception, if any. -/
def execute_batch (batch : List BatchItem) : List Operation × Option String :=
  if batch = [] then ([], none)
  else ([], some "ImportError")

/-- The change count of one batch item, from the safety-gate loop of
`TaskRunner._process_batch_events` (lines 141-151): a directory event counts
the files `os.walk` finds under it (at least 1); a non-directory event, a
path that is not a directory on disk, and a failed walk all count 1.
`dirCount p = some n` models "`p` is a directory and the walk counted `n`
files"; `none` models the other cases. -/
def countItem (dirCount : String → Option ℕ) (it : BatchItem) : ℕ :=
  if it.1.is_directory then
    match dirCount it.1.src_path with
    | some n => max n 1
    | none => 1
  else 1

/-- Total change count of a batch snapshot. -/
def countBatch (dirCount : String → Option ℕ) (batch : List BatchItem) : ℕ :=
  (batch.map (countItem dirCount)).sum

/-- The runner state the batch path touches: the live buffer, the held
buffer, the safety flag, the process-wide pending queue (appended to by
`add_batch_operations` in enqueue order) and a count of emitted
safety-alert callbacks. -/
structure RunnerState where
  file_event_batch : List BatchItem
  paused_batch : List BatchItem
  is_safety_paused : Bool
  queue : List Operation
  alerts : ℕ

/-- `TaskRunner._add_to_batch` (lines 109-121): append the tuple and reset
the debounce timer (the timer handle itself is not part of the state). -/
def add_to_batch (s : RunnerState) (it : BatchItem) : RunnerState :=
  { s with file_event_batch := s.file_event_batch ++ [it] }

/-- `TaskRunner._process_batch_events` (lines 123-160): snapshot and clear
the buffer; while safety-paused, accumulate into `paused_batch` and refresh
the alert; otherwise count the changes and either trip the gate
(`total ≥ safety_threshold`) or call `execute_batch` — whose failing import
raises, so the exception (second component) escapes the timer thread with
the buffer already cleared and nothing enqueued. -/
def process_batch_events (dirCount : String → Option ℕ) (t : TaskCfg)
    (s : RunnerState) : RunnerState × Option String :=
  if s.file_event_batch = [] then (s, none)
  else
    let batch := s.file_event_batch
    let s1 := { s with file_event_batch := ([] : List BatchItem) }
    if s1.is_safety_paused then
      ({ s1 with paused_batch := s1.paused_batch ++ batch, alerts := s1.alerts + 1 },
        none)
    else
      let total := countBatch dirCount batch
      if t.safety_threshold ≤ total then
        ({ s1 with is_safety_paused := true,
                   paused_batch := s1.paused_batch ++ batch,
                   alerts := s1.alerts + 1 }, none)
      else
        let eb := execute_batch batch
        ({ s1 with queue := s1.queue ++ eb.1 }, eb.2)

/-- `TaskRunner.confirm_safety_alert` (lines 179-195): a no-op when not
paused; otherwise it snapshots `paused_batch`, clears it, clears the flag,
and only then hands the drained items to `execute_batch` — whose failing
FileEvent import raises on a non-empty batch, so the held changes are discarded and
nothing reaches the queue while the exception escapes to the caller. -/
def confirm_safety_alert (s : RunnerState) : RunnerState × Option String :=
  if s.is_safety_paused = false then (s, none)
  else
    let batch := s.paused_batch
    let s1 := { s with paused_batch := ([] : List BatchItem),
                       is_safety_paused := false }
    let eb := execute_batch batch
    ({ s1 with queue := s1.queue ++ eb.1 }, eb.2)

/-- `TaskRunner.reset_safety_pause` (lines 363-366): clear the flag and
discard the held batch; nothing is enqueued. -/
def reset_safety_pause (s : RunnerState) : RunnerState :=
  { s with is_safety_paused := false, paused_batch := ([] : List BatchItem) }

/-- The two runner inputs that can occur between a safety pause and its
resolution: an arriving watcher event and a batch-timer fire. -/
inductive RunnerCmd where
  | arrive (it : BatchItem)
  | fire

/-- Run a sequence of arrivals and timer fires, following the runner state
(a fire's escaped exception kills only the timer thread; the runner object
survives with the state the fire left behind). -/
def runCmds (dirCount : String → Option ℕ) (t : TaskCfg) :
    List RunnerCmd → RunnerState → RunnerState
  | [], s => s
  | .arrive it :: rest, s => runCmds dirCount t rest (add_to_batch s it)
  | .fire :: rest, s =>
    runCmds dirCount t rest (process_batch_events dirCount t s).1

/-- The items a command sequence delivers to the runner. -/
def arrivedOf (cs : List RunnerCmd) : List BatchItem :=
  cs.filterMap (fun c =>
    match c with
    | .arrive it => some it
    | .fire => none)

/-- A Python value as the batch tuples actually hold them: the code is
dynamically typed, so a slot meant for a `FileEvent` can hold a plain
string. -/
inductive PyVal where
  | fileEvent (e : FileEvent)
  | str (s : String)
  | pyNone
deriving DecidableEq, Repr

/-- `TaskRunner._on_target_file_event` (lines 102-107) at the dynamic level:
when the runner is RUNNING, append `(event, True, target_base)` to the batch
buffer with whatever values arrived in its two parameters. -/
def on_target_file_event (status : TaskStatus) (batch : List (PyVal × Bool × PyVal))
    (event target_base : PyVal) : List (PyVal × Bool × PyVal) :=
  if status ≠ TaskStatus.running then batch
  else batch ++ [(event, true, target_base)]

/-- The target-watcher callback built in `TaskRunner.start` (line 517):
`lambda evt, tp=target_path: self._on_target_file_event(tp, evt)` — the two
positional arguments are passed in the order `(tp, evt)`, so the watched
base path lands in the `event` parameter and the `FileEvent` in
`target_base`. -/
def target_watcher_callback (status : TaskStatus) (batch : List (PyVal × Bool × PyVal))
    (target_path : String) (evt : FileEvent) : List (PyVal × Bool × PyVal) :=
  on_target_file_event status batch (.str target_path) (.fileEvent evt)

/-- The `isinstance(event, FileEvent)` screen at the top of
`TaskRunner.execute_batch`'s loop (line 217): items whose first component is
not a `FileEvent` are skipped outright. -/
def translateItemPy (t : TaskCfg) (it : PyVal × Bool × PyVal) : List Operation :=
  match it.1 with
  | .fileEvent e =>
    translateItem t (e, it.2.1,
      match it.2.2 with
      | .str s => some s
      | _ => none)
  | _ => []

/-- The result record of `TaskRunner.check_sync_safety`. -/
structure SafetyCheck where
  safe : Bool
  warning_type : Option String
  message : String
  changes_count : ℕ
deriving DecidableEq, Repr

/-- `TaskRunner.check_sync_safety` (lines 690-766).  The dry run itself is
modelled from the spec: the newer processor's `full_sync(dry_run=True)`
(not present under `src/`, whose `full_sync` takes no `dry_run`) returns the
plan's per-file `SyncResult`s while "performing no destructive filesystem
work", supplied here as `dryRunResults`; `sourceFiles` is the
`scan_directory` enumeration of the task source.  The analysis ladder —
count `copy`/`delete`/`move` results, check empty-source protection first,
then the massive-change threshold — is translated from the source. -/
def check_sync_safety (mode : SyncMode) (delete_orphans : Bool)
    (safety_threshold : ℕ) (dryRunResults : List SyncResult)
    (sourceFiles : List String) : SafetyCheck :=
  let total := (dryRunResults.filter
    (fun r => r.action = "copy" ∨ r.action = "delete" ∨ r.action = "move")).length
  let deletes := (dryRunResults.filter (fun r => r.action = "delete")).length
  if mode = SyncMode.one_way ∧ delete_orphans = true ∧
      sourceFiles.length = 0 ∧ 0 < deletes then
    ⟨false, some "empty_source", "警告：源文件夹为空！本次同步将删除目标文件夹中的文件。", total⟩
  else if safety_threshold ≤ total then
    ⟨false, some "massive_change", "警告：本次同步涉及大量变更！超过了设定的安全阈值。", total⟩
  else
    ⟨true, none, "", total⟩

/-- The pending-event dictionary of `DebouncedEventHandler`
(`src/core/file_monitor.py`): a Python dict keyed by source path,
represented as an association list in insertion order.  Assignment
`d[key] = event` overwrites in place when the key is present and appends
otherwise. -/
def dictInsert : List (String × FileEvent) → String → FileEvent →
    List (String × FileEvent)
  | [], k, v => [(k, v)]
  | kv :: rest, k, v =>
    if kv.1 = k then (k, v) :: rest else kv :: dictInsert rest k v

/-- Dictionary lookup on the association list. -/
def dictFind : List (String × FileEvent) → String → Option FileEvent
  | [], _ => none
  | kv :: rest, p => if kv.1 = p then some kv.2 else dictFind rest p

/-- The last event of the window for path `p` that survives the ignore
filter — what the claim says the fired buffer must hold for `p`. -/
def lastMatch (ignore : String → Bool) (p : String) (events : List FileEvent) :
    Option FileEvent :=
  events.foldl
    (fun acc e => if e.src_path = p ∧ ignore e.src_path = false then some e else acc)
    none

/-- `DebouncedEventHandler._add_event` (lines 96-106): drop ignored paths,
then store the event under its source path — a later event for the same
path overwrites the earlier one — and reset the single-shot timer. -/
def add_event (ignore : String → Bool) (pending : List (String × FileEvent))
    (event : FileEvent) : List (String × FileEvent) :=
  if ignore event.src_path then pending
  else dictInsert pending event.src_path event

/-- Buffer a whole window's worth of events in arrival order. -/
def addEvents (ignore : String → Bool) (pending : List (String × FileEvent))
    (events : List FileEvent) : List (String × FileEvent) :=
  events.foldl (add_event ignore) pending

/-- `DebouncedEventHandler._process_events` (lines 84-94): on the timer
fire, the callback receives the buffered dictionary's values. -/
def flush_events (pending : List (String × FileEvent)) : List FileEvent :=
  pending.map (·.2)

/-- C2: a forward "deleted" event: with `disable_delete` set the processor
skips with a reason and the mirror file survives; with it clear the mirror
at the relative path is removed; an already-absent mirror yields a skip. -/
theorem claim_C2_deleted_event (dd : Bool) (sb tb : String) (fs : MirrorFS) (dp : String) :
    (dd = true →
      (sync_deletion dd sb tb fs dp).1.action = "skip" ∧
      (sync_deletion dd sb tb fs dp).1.message ≠ "" ∧
      (sync_deletion dd sb tb fs dp).2 = fs) ∧
    (dd = false → pathExists fs (joinPath tb (get_relative_path dp sb)) = true →
      (sync_deletion dd sb tb fs dp).1.action = "delete" ∧
      (sync_deletion dd sb tb fs dp).2 (joinPath tb (get_relative_path dp sb)) = none) ∧
    (dd = false → pathExists fs (joinPath tb (get_relative_path dp sb)) = false →
      (sync_deletion dd sb tb fs dp).1.action = "skip" ∧
      (sync_deletion dd sb tb fs dp).2 = fs) := by
  refine ⟨fun h => ?_, fun h he => ?_, fun h he => ?_⟩
  · subst h
    simp [sync_deletion]
  · subst h
    simp [sync_deletion, sync_deletion_src, he, safe_delete_file, MirrorFS.set]
  · subst h
    simp [sync_deletion, sync_deletion_src, he]

/-- Witness for C2 at a concrete filesystem holding one mirror file. -/
theorem claim_C2_deleted_event_witness :
    (sync_deletion true "/s" "/t"
        (fun p => if p = "/t/a.txt" then some ⟨some "T", 1, 1⟩ else none)
        "/s/a.txt").1.action = "skip" ∧
    (sync_deletion false "/s" "/t"
        (fun p => if p = "/t/a.txt" then some ⟨some "T", 1, 1⟩ else none)
        "/s/a.txt").2 "/t/a.txt" = none ∧
    (sync_deletion false "/s" "/t" (fun _ => none) "/s/a.txt").1.action = "skip" := by
  refine ⟨?_, ?_, ?_⟩
  · exact ((claim_C2_deleted_event true "/s" "/t"
      (fun p => if p = "/t/a.txt" then some ⟨some "T", 1, 1⟩ else none)
      "/s/a.txt").1 rfl).1
  · exact ((claim_C2_deleted_event false "/s" "/t"
      (fun p => if p = "/t/a.txt" then some ⟨some "T", 1, 1⟩ else none)
      "/s/a.txt").2.1 rfl (by decide)).2
  · exact ((claim_C2_deleted_event false "/s" "/t" (fun _ => none)
      "/s/a.txt").2.2 rfl (by decide)).1

/-- C3: `check_sync_safety` classifies a dry-run plan: `empty_source`
exactly for a one-way task with `delete_orphans`, an empty source
enumeration and a plan containing deletions; otherwise `massive_change`
exactly when the change count reaches `safety_threshold`; otherwise safe
with no warning; `changes_count` is the number of `copy`/`delete`/`move`
results.  (The empty-source check precedes the threshold check, as in the
source's ladder.) -/
theorem claim_C3_check_sync_safety (mode : SyncMode) (delo : Bool) (thr : ℕ)
    (results : List SyncResult) (srcFiles : List String) :
    ((check_sync_safety mode delo thr results srcFiles).warning_type = some "empty_source" ↔
      (mode = SyncMode.one_way ∧ delo = true ∧ srcFiles = [] ∧
        0 < (results.filter (fun r => r.action = "delete")).length)) ∧
    ((check_sync_safety mode delo thr results srcFiles).warning_type = some "massive_change" ↔
      (¬ (mode = SyncMode.one_way ∧ delo = true ∧ srcFiles = [] ∧
          0 < (results.filter (fun r => r.action = "delete")).length) ∧
        thr ≤ (results.filter
          (fun r => r.action = "copy" ∨ r.action = "delete" ∨ r.action = "move")).length)) ∧
    ((check_sync_safety mode delo thr results srcFiles).safe = true ↔
      (check_sync_safety mode delo thr results srcFiles).warning_type = none) ∧
    (check_sync_safety mode delo thr results srcFiles).changes_count =
      (results.filter
        (fun r => r.action = "copy" ∨ r.action = "delete" ∨ r.action = "move")).length := by
  have hlen : (srcFiles.length = 0) ↔ (srcFiles = []) := List.length_eq_zero
  unfold check_sync_safety
  by_cases hes : mode = SyncMode.one_way ∧ delo = true ∧ srcFiles = [] ∧
      0 < (results.filter (fun r => r.action = "delete")).length
  · rw [if_pos ⟨hes.1, hes.2.1, hlen.mpr hes.2.2.1, hes.2.2.2⟩]
    exact ⟨iff_of_true rfl hes,
      iff_of_false (by simp) (fun h => h.1 hes),
      iff_of_false (by simp) (by simp),
      rfl⟩
  · have hes' : ¬ (mode = SyncMode.one_way ∧ delo = true ∧ srcFiles.length = 0 ∧
        0 < (results.filter (fun r => r.action = "delete")).length) :=
      fun h => hes ⟨h.1, h.2.1, hlen.mp h.2.2.1, h.2.2.2⟩
    rw [if_neg hes']
    by_cases hmc : thr ≤ (results.filter
        (fun r => r.action = "copy" ∨ r.action = "delete" ∨ r.action = "move")).length
    · rw [if_pos hmc]
      exact ⟨iff_of_false (by simp) hes,
        iff_of_true rfl ⟨hes, hmc⟩,
        iff_of_false (by simp) (by simp),
        rfl⟩
    · rw [if_neg hmc]
      exact ⟨iff_of_false (by simp) hes,
        iff_of_false (by simp) (fun h => hmc h.2),
        iff_of_true rfl rfl,
        rfl⟩

/-- C6: evaluation of the target-watcher path at a concrete event.  The
callback built in `TaskRunner.start` passes its arguments to
`_on_target_file_event` in the order `(tp, evt)`, so the tuple appended to
the batch buffer is `(target_base, True, event)` — the watched base path in
the event slot and the `FileEvent` in the base slot — not
`(event, True, target_base)`; the `isinstance` screen of `execute_batch`
then drops the tuple, producing no operations.  (In the program the screen
is itself unreachable — the failing `FileEvent` import at task_manager.py:204
raises first — so either way the mistyped tuple yields no operation.) -/
theorem claim_C6_target_event_tuple :
    target_watcher_callback TaskStatus.running []
        "/t" ⟨FileEventType.modified, "/t/a.txt", none, false, 0⟩ =
      [(PyVal.str "/t", true,
        PyVal.fileEvent ⟨FileEventType.modified, "/t/a.txt", none, false, 0⟩)] ∧
    (PyVal.str "/t") ≠
      (PyVal.fileEvent ⟨FileEventType.modified, "/t/a.txt", none, false, 0⟩) ∧
    translateItemPy ⟨"t1", "task", "/s", ["/t"], 50⟩
      (PyVal.str "/t", true,
        PyVal.fileEvent ⟨FileEventType.modified, "/t/a.txt", none, false, 0⟩) = [] := by
  refine ⟨rfl, by decide, rfl⟩

/-- C8: evaluation of `process_event` at a created-directory event whose
mirror-directory creation fails (`os.makedirs` raising because a regular
file occupies the target directory path): the call on line 492 of
`src/core/sync_processor.py` is not wrapped in `try/except`, so the
exception escapes `process_event` instead of coming back as an error
`SyncResult`. -/
theorem claim_C8_makedirs_escapes :
    process_event ⟨id, SyncMode.one_way, ConflictStrategy.newest_wins, none,
        fun _ => true, "t1", "hash", 100⟩ "/s" ["/t"] ⟨2024, 1, 2, 3, 4, 5⟩
      (fun p => if p = "/t/d" then some ⟨some "occupied", 0, 8⟩ else none)
      (fun _ => none)
      ⟨FileEventType.created, "/s/d", none, true, 0⟩ = Except.error "FileExistsError" ∧
    process_reverse_event ⟨id, SyncMode.two_way, ConflictStrategy.newest_wins, none,
        fun _ => true, "t1", "hash", 100⟩ "/s" "/t"
      (fun p => if p = "/s/d" then some ⟨some "occupied", 0, 8⟩ else none)
      (fun _ => none)
      ⟨FileEventType.created, "/t/d", none, true, 0⟩ = Except.error "FileExistsError" := by
  constructor
  · rfl
  · rfl

/-- C10: `get_file_hash` is total over the model and returns `""` whenever
the read fails, so two unreadable files compare as having equal (empty)
hashes; evaluated on `_sync_file_with_hash`, an existing-but-unreadable
source whose target is equally unreadable lands in the both-changed
equal-hash branch and records state hash `""`. -/
theorem claim_C10_hash_total (f : String → String) (fs : MirrorFS) (p q : String) :
    (readContent fs p = none → get_file_hash f fs p = "") ∧
    (readContent fs p = none → readContent fs q = none →
      get_file_hash f fs p = get_file_hash f fs q) ∧
    (((sync_file_with_hash ⟨id, SyncMode.one_way, ConflictStrategy.newest_wins, none,
          fun _ => true, "t1", "hash", 100⟩ "/s" "/t" ⟨2024, 1, 2, 3, 4, 5⟩
        (fun r => if r = "/s/a.txt" then some ⟨none, 3, 7⟩
          else if r = "/t/a.txt" then some ⟨none, 4, 7⟩ else none)
        (fun r => if r = "a.txt" then some ⟨"h", 1, 7⟩ else none)
        "/s/a.txt").st "a.txt").map (·.hash) = some "" ∧
      (sync_file_with_hash ⟨id, SyncMode.one_way, ConflictStrategy.newest_wins, none,
          fun _ => true, "t1", "hash", 100⟩ "/s" "/t" ⟨2024, 1, 2, 3, 4, 5⟩
        (fun r => if r = "/s/a.txt" then some ⟨none, 3, 7⟩
          else if r = "/t/a.txt" then some ⟨none, 4, 7⟩ else none)
        (fun r => if r = "a.txt" then some ⟨"h", 1, 7⟩ else none)
        "/s/a.txt").result.action = "skip") := by
  refine ⟨?_, ?_, ?_, ?_⟩
  · intro h
    simp [get_file_hash, h]
  · intro h h'
    simp [get_file_hash, h, h']
  · rfl
  · rfl

/-- Witness for C10 at a concrete unreadable pair of paths. -/
theorem claim_C10_hash_total_witness :
    get_file_hash id (fun _ => none) "/s/a" = "" ∧
    get_file_hash id (fun _ => none) "/s/a" = get_file_hash id (fun _ => none) "/s/b" := by
  refine ⟨?_, ?_⟩
  · exact (claim_C10_hash_total id (fun _ => none) "/s/a" "/s/b").1 rfl
  · exact (claim_C10_hash_total id (fun _ => none) "/s/a" "/s/b").2.1 rfl rfl

/-- C4: a batch-timer fire on a non-paused runner counts the snapshot —
a directory event as the (walked) number of contained files, at least 1,
and every other event as 1 — and when the count reaches `safety_threshold`
trips the gate (snapshot moved to `paused_batch`, flag set, one safety
alert emitted, nothing enqueued, no exception).  Below the threshold the
claimed translate-and-enqueue does NOT happen: `execute_batch` raises
`ImportError` on `from utils.constants import FileEventType, FileEvent`
(task_manager.py:204; `utils/constants.py` defines no `FileEvent`), so the
queue is untouched, the already-cleared snapshot is lost and the exception
escapes the timer thread. -/
theorem claim_C4_batch_fire_gate (dc : String → Option ℕ) (t : TaskCfg)
    (s : RunnerState) (hp : s.is_safety_paused = false)
    (hne : s.file_event_batch ≠ []) :
    (t.safety_threshold ≤ countBatch dc s.file_event_batch →
      (process_batch_events dc t s).1.is_safety_paused = true ∧
      (process_batch_events dc t s).1.paused_batch =
        s.paused_batch ++ s.file_event_batch ∧
      (process_batch_events dc t s).1.queue = s.queue ∧
      (process_batch_events dc t s).1.alerts = s.alerts + 1 ∧
      (process_batch_events dc t s).1.file_event_batch = [] ∧
      (process_batch_events dc t s).2 = none) ∧
    (countBatch dc s.file_event_batch < t.safety_threshold →
      (process_batch_events dc t s).1.queue = s.queue ∧
      (process_batch_events dc t s).2 = some "ImportError" ∧
      (process_batch_events dc t s).1.is_safety_paused = false ∧
      (process_batch_events dc t s).1.paused_batch = s.paused_batch ∧
      (process_batch_events dc t s).1.file_event_batch = []) ∧
    (∀ it : BatchItem, it.1.is_directory = true →
      1 ≤ countItem dc it ∧ ∀ n, dc it.1.src_path = some n → countItem dc it = max n 1) ∧
    (∀ it : BatchItem, it.1.is_directory = false → countItem dc it = 1) := by
  have heb : execute_batch s.file_event_batch = ([], some "ImportError") := by
    unfold execute_batch
    rw [if_neg hne]
  refine ⟨fun hth => ?_, fun hth => ?_, fun it hd => ⟨?_, fun n hn => ?_⟩, fun it hd => ?_⟩
  · unfold process_batch_events
    rw [if_neg hne]
    simp only [hp, Bool.false_eq_true, if_false, if_pos hth]
    refine ⟨?_, ?_, ?_, ?_, ?_, ?_⟩ <;> first | rfl | trivial
  · unfold process_batch_events
    rw [if_neg hne]
    simp only [hp, Bool.false_eq_true, if_false, if_neg (Nat.not_le.mpr hth), heb]
    refine ⟨?_, ?_, ?_, ?_, ?_⟩ <;> first | rfl | trivial | simp
  · unfold countItem
    rw [if_pos hd]
    cases dc it.1.src_path with
    | none => exact Nat.le_refl 1
    | some n => exact Nat.le_max_right n 1
  · unfold countItem
    rw [if_pos hd, hn]
  · unfold countItem
    rw [if_neg (by simp [hd])]

/-- Witness for C4: a two-item batch (a directory holding 3 files plus one
file event) counts 4; at `safety_threshold = 4` the gate trips with nothing
enqueued and no exception; at `safety_threshold = 5` (count = threshold − 1)
the queue is still empty and the `ImportError` escapes. -/
theorem claim_C4_batch_fire_gate_witness :
    (process_batch_events (fun p => if p = "/s/dir" then some 3 else none)
        ⟨"t1", "task", "/s", ["/t"], 4⟩
        ⟨[(⟨FileEventType.created, "/s/dir", none, true, 0⟩, false, none),
          (⟨FileEventType.modified, "/s/a.txt", none, false, 0⟩, false, none)],
          [], false, [], 0⟩).1.is_safety_paused = true ∧
    (process_batch_events (fun p => if p = "/s/dir" then some 3 else none)
        ⟨"t1", "task", "/s", ["/t"], 4⟩
        ⟨[(⟨FileEventType.created, "/s/dir", none, true, 0⟩, false, none),
          (⟨FileEventType.modified, "/s/a.txt", none, false, 0⟩, false, none)],
          [], false, [], 0⟩).1.queue = [] ∧
    (process_batch_events (fun p => if p = "/s/dir" then some 3 else none)
        ⟨"t1", "task", "/s", ["/t"], 5⟩
        ⟨[(⟨FileEventType.created, "/s/dir", none, true, 0⟩, false, none),
          (⟨FileEventType.modified, "/s/a.txt", none, false, 0⟩, false, none)],
          [], false, [], 0⟩).1.queue = [] ∧
    (process_batch_events (fun p => if p = "/s/dir" then some 3 else none)
        ⟨"t1", "task", "/s", ["/t"], 5⟩
        ⟨[(⟨FileEventType.created, "/s/dir", none, true, 0⟩, false, none),
          (⟨FileEventType.modified, "/s/a.txt", none, false, 0⟩, false, none)],
          [], false, [], 0⟩).2 = some "ImportError" := by
  refine ⟨?_, ?_, ?_, ?_⟩
  · exact ((claim_C4_batch_fire_gate (fun p => if p = "/s/dir" then some 3 else none)
      ⟨"t1", "task", "/s", ["/t"], 4⟩ _ rfl (by decide)).1 (by decide)).1
  · exact ((claim_C4_batch_fire_gate (fun p => if p = "/s/dir" then some 3 else none)
      ⟨"t1", "task", "/s", ["/t"], 4⟩ _ rfl (by decide)).1 (by decide)).2.2.1
  · exact ((claim_C4_batch_fire_gate (fun p => if p = "/s/dir" then some 3 else none)
      ⟨"t1", "task", "/s", ["/t"], 5⟩ _ rfl (by decide)).2.1 (by decide)).1
  · exact ((claim_C4_batch_fire_gate (fun p => if p = "/s/dir" then some 3 else none)
      ⟨"t1", "task", "/s", ["/t"], 5⟩ _ rfl (by decide)).2.1 (by decide)).2.1

/-- While the safety flag is up, any mix of arrivals and timer fires leaves
the queue untouched, keeps the flag up, and only shuffles items between the
live buffer and `paused_batch`. -/
theorem runCmds_paused_invariant (dc : String → Option ℕ) (t : TaskCfg) :
    ∀ (cs : List RunnerCmd) (s : RunnerState), s.is_safety_paused = true →
      (runCmds dc t cs s).queue = s.queue ∧
      (runCmds dc t cs s).is_safety_paused = true ∧
      (runCmds dc t cs s).paused_batch ++ (runCmds dc t cs s).file_event_batch =
        s.paused_batch ++ s.file_event_batch ++ arrivedOf cs := by
  intro cs
  induction cs with
  | nil =>
    intro s hp
    exact ⟨rfl, hp, by simp [runCmds, arrivedOf]⟩
  | cons c rest ih =>
    intro s hp
    cases c with
    | arrive it =>
      have h := ih (add_to_batch s it) hp
      refine ⟨h.1, h.2.1, ?_⟩
      rw [show runCmds dc t (RunnerCmd.arrive it :: rest) s =
        runCmds dc t rest (add_to_batch s it) from rfl]
      rw [h.2.2]
      simp [add_to_batch, arrivedOf, List.filterMap_cons]
    | fire =>
      have hg : runCmds dc t (RunnerCmd.fire :: rest) s =
          runCmds dc t rest (process_batch_events dc t s).1 := rfl
      by_cases hb : s.file_event_batch = []
      · have hfix : (process_batch_events dc t s).1 = s := by
          unfold process_batch_events
          rw [if_pos hb]
        rw [hg, hfix]
        have h := ih s hp
        refine ⟨h.1, h.2.1, ?_⟩
        rw [h.2.2]
        simp [arrivedOf, List.filterMap_cons]
      · have hfix : (process_batch_events dc t s).1 =
            { s with file_event_batch := ([] : List BatchItem),
                     paused_batch := s.paused_batch ++ s.file_event_batch,
                     alerts := s.alerts + 1 } := by
          unfold process_batch_events
          rw [if_neg hb]
          simp only [hp, if_true]
        have hpb : (process_batch_events dc t s).1.is_safety_paused = true := by
          rw [hfix]
          exact hp
        have h := ih (process_batch_events dc t s).1 hpb
        rw [hg]
        refine ⟨?_, h.2.1, ?_⟩
        · rw [h.1, hfix]
        · rw [h.2.2, hfix]
          simp [arrivedOf, List.filterMap_cons]

/-- C5: while `is_safety_paused` is set, arrivals and timer fires leave the
queue untouched (items only accumulate into `paused_batch`; such fires
raise nothing), and `reset_safety_pause` enqueues zero items, discards
`paused_batch` and clears the flag — but `confirm_safety_alert`, after
clearing the flag and draining the buffer, calls `execute_batch`, whose
failing `FileEvent` import raises before `add_batch_operations`: ZERO of
the accumulated items reach the queue, the held changes are lost and the
exception escapes to the caller, refuting the claimed "enqueues exactly
the accumulated items". -/
theorem claim_C5_pause_confirm_reset (dc : String → Option ℕ) (t : TaskCfg)
    (s : RunnerState) (hp : s.is_safety_paused = true) :
    (∀ cs : List RunnerCmd,
      (runCmds dc t cs s).queue = s.queue ∧
      (runCmds dc t cs s).is_safety_paused = true ∧
      (runCmds dc t cs s).paused_batch ++ (runCmds dc t cs s).file_event_batch =
        s.paused_batch ++ s.file_event_batch ++ arrivedOf cs) ∧
    (∀ s' : RunnerState, s'.is_safety_paused = true →
      (process_batch_events dc t s').2 = none) ∧
    (s.paused_batch ≠ [] →
      (confirm_safety_alert s).1.queue = s.queue ∧
      (confirm_safety_alert s).2 = some "ImportError" ∧
      (confirm_safety_alert s).1.paused_batch = [] ∧
      (confirm_safety_alert s).1.is_safety_paused = false) ∧
    (s.paused_batch = [] →
      (confirm_safety_alert s).1.queue = s.queue ∧
      (confirm_safety_alert s).2 = none) ∧
    ((reset_safety_pause s).queue = s.queue ∧
      (reset_safety_pause s).paused_batch = [] ∧
      (reset_safety_pause s).is_safety_paused = false) := by
  refine ⟨fun cs => runCmds_paused_invariant dc t cs s hp,
    fun s' hp' => ?_, fun hnb => ?_, fun hb => ?_, ⟨rfl, rfl, rfl⟩⟩
  · unfold process_batch_events
    by_cases hb : s'.file_event_batch = []
    · rw [if_pos hb]
    · rw [if_neg hb]
      simp only [hp', if_true]
  · have heb : execute_batch s.paused_batch = ([], some "ImportError") := by
      unfold execute_batch
      rw [if_neg hnb]
    unfold confirm_safety_alert
    rw [if_neg (by simp [hp])]
    simp only [heb]
    exact ⟨by simp, trivial, trivial, trivial⟩
  · have heb : execute_batch s.paused_batch = ([], none) := by
      unfold execute_batch
      rw [if_pos hb]
    unfold confirm_safety_alert
    rw [if_neg (by simp [hp])]
    simp only [heb]
    exact ⟨by simp, trivial⟩

/-- Witness for C5: a concrete paused runner with one held item; arrivals
and fires do not touch the queue, confirm leaves the queue empty while
the import error escapes, reset enqueues nothing. -/
theorem claim_C5_pause_confirm_reset_witness :
    (runCmds (fun _ => none) ⟨"t1", "task", "/s", ["/t"], 2⟩
        [RunnerCmd.arrive (⟨FileEventType.modified, "/s/b.txt", none, false, 0⟩, false, none),
         RunnerCmd.fire]
        ⟨[], [(⟨FileEventType.modified, "/s/a.txt", none, false, 0⟩, false, none)],
          true, [], 0⟩).queue = [] ∧
    (confirm_safety_alert
        ⟨[], [(⟨FileEventType.modified, "/s/a.txt", none, false, 0⟩, false, none)],
          true, [], 0⟩).1.queue = [] ∧
    (confirm_safety_alert
        ⟨[], [(⟨FileEventType.modified, "/s/a.txt", none, false, 0⟩, false, none)],
          true, [], 0⟩).2 = some "ImportError" ∧
    (reset_safety_pause
        ⟨[], [(⟨FileEventType.modified, "/s/a.txt", none, false, 0⟩, false, none)],
          true, [], 0⟩).queue = [] := by
  refine ⟨?_, ?_, ?_, ?_⟩
  · exact ((claim_C5_pause_confirm_reset (fun _ => none) ⟨"t1", "task", "/s", ["/t"], 2⟩
      _ rfl).1 _).1
  · exact ((claim_C5_pause_confirm_reset (fun _ => none) ⟨"t1", "task", "/s", ["/t"], 2⟩
      ⟨[], [(⟨FileEventType.modified, "/s/a.txt", none, false, 0⟩, false, none)],
        true, [], 0⟩ rfl).2.2.1 (by decide)).1
  · exact ((claim_C5_pause_confirm_reset (fun _ => none) ⟨"t1", "task", "/s", ["/t"], 2⟩
      ⟨[], [(⟨FileEventType.modified, "/s/a.txt", none, false, 0⟩, false, none)],
        true, [], 0⟩ rfl).2.2.1 (by decide)).2.1
  · exact ((claim_C5_pause_confirm_reset (fun _ => none) ⟨"t1", "task", "/s", ["/t"], 2⟩
      ⟨[], [(⟨FileEventType.modified, "/s/a.txt", none, false, 0⟩, false, none)],
        true, [], 0⟩ rfl).2.2.2.2).1

/-- Lookup after a dictionary assignment: the assigned key reads the new
value, every other key is untouched. -/
theorem dictFind_dictInsert (m : List (String × FileEvent)) (k p : String)
    (v : FileEvent) :
    dictFind (dictInsert m k v) p = if p = k then some v else dictFind m p := by
  induction m with
  | nil =>
    by_cases h : p = k
    · simp [dictInsert, dictFind, h]
    · simp [dictInsert, dictFind, h, Ne.symm h]
  | cons kv rest ih =>
    by_cases hk : kv.1 = k
    · rw [show dictInsert (kv :: rest) k v = (k, v) :: rest from by
        simp [dictInsert, hk]]
      by_cases hp : p = k
      · simp [dictFind, hp]
      · simp [dictFind, hp, hk, Ne.symm hp]
    · rw [show dictInsert (kv :: rest) k v = kv :: dictInsert rest k v from by
        simp [dictInsert, hk]]
      by_cases hkvp : kv.1 = p
      · have hpk : ¬ (p = k) := fun h => hk (hkvp.trans h)
        simp [dictFind, hkvp, hpk]
      · simp [dictFind, hkvp, ih]

/-- Keys stay within the old keys plus the assigned key. -/
theorem dictInsert_keys_subset (m : List (String × FileEvent)) (k : String)
    (v : FileEvent) :
    ∀ x ∈ (dictInsert m k v).map Prod.fst, x ∈ m.map Prod.fst ∨ x = k := by
  induction m with
  | nil =>
    intro x hx
    simp [dictInsert] at hx
    exact Or.inr hx
  | cons kv rest ih =>
    intro x hx
    by_cases hk : kv.1 = k
    · rw [show dictInsert (kv :: rest) k v = (k, v) :: rest from by
        simp [dictInsert, hk]] at hx
      simp at hx
      rcases hx with h | h
      · exact Or.inr h
      · exact Or.inl (by simp [h])
    · rw [show dictInsert (kv :: rest) k v = kv :: dictInsert rest k v from by
        simp [dictInsert, hk]] at hx
      simp at hx
      rcases hx with h | h
      · exact Or.inl (by simp [h])
      · rcases ih x (by simpa using h) with h' | h'
        · exact Or.inl (by simp at h' ⊢; exact Or.inr h')
        · exact Or.inr h'

/-- Assignment preserves distinctness of the keys. -/
theorem dictInsert_keys_nodup (m : List (String × FileEvent)) (k : String)
    (v : FileEvent) (h : (m.map Prod.fst).Nodup) :
    ((dictInsert m k v).map Prod.fst).Nodup := by
  induction m with
  | nil => simp [dictInsert]
  | cons kv rest ih =>
    by_cases hk : kv.1 = k
    · rw [show dictInsert (kv :: rest) k v = (k, v) :: rest from by
        simp [dictInsert, hk]]
      simp only [List.map_cons, List.nodup_cons] at h ⊢
      exact ⟨hk ▸ h.1, h.2⟩
    · rw [show dictInsert (kv :: rest) k v = kv :: dictInsert rest k v from by
        simp [dictInsert, hk]]
      simp only [List.map_cons, List.nodup_cons] at h ⊢
      refine ⟨?_, ih h.2⟩
      intro hmem
      rcases dictInsert_keys_subset rest k v kv.1 hmem with h' | h'
      · exact h.1 h'
      · exact hk h'

/-- Every stored pair keeps the invariant "key = the event's source path". -/
theorem dictInsert_key_inv (m : List (String × FileEvent)) (k : String)
    (v : FileEvent) (h : ∀ kv ∈ m, kv.1 = kv.2.src_path) (hv : k = v.src_path) :
    ∀ kv ∈ dictInsert m k v, kv.1 = kv.2.src_path := by
  induction m with
  | nil =>
    intro kv hkv
    simp [dictInsert] at hkv
    simp [hkv, hv]
  | cons kv0 rest ih =>
    intro kv hkv
    by_cases hk : kv0.1 = k
    · rw [show dictInsert (kv0 :: rest) k v = (k, v) :: rest from by
        simp [dictInsert, hk]] at hkv
      rcases List.mem_cons.mp hkv with h' | h'
      · simp [h', hv]
      · exact h kv (List.mem_cons_of_mem kv0 h')
    · rw [show dictInsert (kv0 :: rest) k v = kv0 :: dictInsert rest k v from by
        simp [dictInsert, hk]] at hkv
      rcases List.mem_cons.mp hkv with h' | h'
      · exact h' ▸ h kv0 (List.mem_cons_self kv0 rest)
      · exact ih (fun x hx => h x (List.mem_cons_of_mem kv0 hx)) kv h'

/-- The buffered dictionary after a window of arrivals reads, at each path,
the last surviving event of the window (falling back to the pre-window
content). -/
theorem addEvents_find (ignore : String → Bool) (p : String) :
    ∀ (events : List FileEvent) (pending : List (String × FileEvent)),
      dictFind (addEvents ignore pending events) p =
        events.foldl
          (fun acc e =>
            if e.src_path = p ∧ ignore e.src_path = false then some e else acc)
          (dictFind pending p) := by
  intro events
  induction events with
  | nil => intro pending; rfl
  | cons e rest ih =>
    intro pending
    show dictFind (addEvents ignore (add_event ignore pending e) rest) p = _
    rw [ih (add_event ignore pending e)]
    have hstep : dictFind (add_event ignore pending e) p =
        if e.src_path = p ∧ ignore e.src_path = false then some e
        else dictFind pending p := by
      unfold add_event
      by_cases hig : ignore e.src_path
      · simp [hig]
      · rw [if_neg hig, dictFind_dictInsert]
        by_cases hp : e.src_path = p
        · have hig' : ignore e.src_path = false := by simpa using hig
          simp [hp, hp ▸ hig']
        · simp [hp, Ne.symm hp]
    rw [List.foldl_cons, hstep]

/-- Preservation of key distinctness over a window of arrivals. -/
theorem addEvents_nodup (ignore : String → Bool) :
    ∀ (events : List FileEvent) (pending : List (String × FileEvent)),
      (pending.map Prod.fst).Nodup →
      ((addEvents ignore pending events).map Prod.fst).Nodup := by
  intro events
  induction events with
  | nil => intro pending h; exact h
  | cons e rest ih =>
    intro pending h
    refine ih (add_event ignore pending e) ?_
    unfold add_event
    by_cases hig : ignore e.src_path
    · simpa [hig] using h
    · rw [if_neg hig]
      exact dictInsert_keys_nodup pending e.src_path e h

/-- Preservation of the key/source-path invariant over a window. -/
theorem addEvents_key_inv (ignore : String → Bool) :
    ∀ (events : List FileEvent) (pending : List (String × FileEvent)),
      (∀ kv ∈ pending, kv.1 = kv.2.src_path) →
      ∀ kv ∈ addEvents ignore pending events, kv.1 = kv.2.src_path := by
  intro events
  induction events with
  | nil => intro pending h; exact h
  | cons e rest ih =>
    intro pending h
    refine ih (add_event ignore pending e) ?_
    unfold add_event
    by_cases hig : ignore e.src_path
    · simpa [hig] using h
    · rw [if_neg hig]
      exact dictInsert_key_inv pending e.src_path e h rfl

/-- C9: over one debounce window the handler buffers events in a dictionary
keyed by source path where a later event overwrites an earlier one for the
same path; the flush hands the callback at most one event per distinct
path, and the entry for each path is the last surviving event of the
window. -/
theorem claim_C9_debounce_window (ignore : String → Bool) (events : List FileEvent) :
    ((addEvents ignore [] events).map Prod.fst).Nodup ∧
    (∀ kv ∈ addEvents ignore [] events, kv.1 = kv.2.src_path) ∧
    (∀ p, dictFind (addEvents ignore [] events) p = lastMatch ignore p events) ∧
    ((flush_events (addEvents ignore [] events)).map (·.src_path) =
      (addEvents ignore [] events).map Prod.fst) ∧
    ((flush_events (addEvents ignore [] events)).map (·.src_path)).Nodup := by
  have hnd := addEvents_nodup ignore events [] (by simp)
  have hinv := addEvents_key_inv ignore events [] (by simp)
  have hmap : (flush_events (addEvents ignore [] events)).map (·.src_path) =
      (addEvents ignore [] events).map Prod.fst := by
    unfold flush_events
    rw [List.map_map]
    exact (List.map_congr_left (fun kv hkv => (hinv kv hkv).symm))
  refine ⟨hnd, hinv, fun p => ?_, hmap, hmap ▸ hnd⟩
  rw [addEvents_find ignore p events []]
  rfl

/-- Witness for C9: three events on two paths in one window; the flush
holds one event per path, and path `/s/a` maps to the later of its two
events. -/
theorem claim_C9_debounce_window_witness :
    dictFind (addEvents (fun _ => false) []
        [⟨FileEventType.created, "/s/a", none, false, 0⟩,
         ⟨FileEventType.created, "/s/b", none, false, 1⟩,
         ⟨FileEventType.modified, "/s/a", none, false, 2⟩]) "/s/a" =
      some ⟨FileEventType.modified, "/s/a", none, false, 2⟩ ∧
    ((flush_events (addEvents (fun _ => false) []
        [⟨FileEventType.created, "/s/a", none, false, 0⟩,
         ⟨FileEventType.created, "/s/b", none, false, 1⟩,
         ⟨FileEventType.modified, "/s/a", none, false, 2⟩])).map (·.src_path)).Nodup := by
  constructor
  · rw [(claim_C9_debounce_window (fun _ => false)
      [⟨FileEventType.created, "/s/a", none, false, 0⟩,
       ⟨FileEventType.created, "/s/b", none, false, 1⟩,
       ⟨FileEventType.modified, "/s/a", none, false, 2⟩]).2.2.1 "/s/a"]
    rfl
  · exact (claim_C9_debounce_window (fun _ => false)
      [⟨FileEventType.created, "/s/a", none, false, 0⟩,
       ⟨FileEventType.created, "/s/b", none, false, 1⟩,
       ⟨FileEventType.modified, "/s/a", none, false, 2⟩]).2.2.2.2

/-- The version search returns the least unoccupied version at or above the
start, given enough fuel. -/
theorem findVersion_eq (occ : ℕ → Bool) (N : ℕ) (hN : occ N = false) :
    ∀ (f v : ℕ), v ≤ N → (∀ k, v ≤ k → k < N → occ k = true) → N - v < f →
      findVersion occ f v = N := by
  intro f
  induction f with
  | zero =>
    intro v hv hall hlt
    omega
  | succ f ih =>
    intro v hv hall hlt
    by_cases hvN : v = N
    · subst hvN
      unfold findVersion
      rw [hN]
      simp
    · have hvlt : v < N := lt_of_le_of_ne hv hvN
      have hocc : occ v = true := hall v (le_refl v) hvlt
      unfold findVersion
      rw [hocc]
      simp only [if_true]
      exact ih (v + 1) hvlt (fun k hk hk' => hall k (by omega) hk') (by omega)

/-- `generate_versioned_filename` returns the candidate with the smallest
positive version number whose path does not exist. -/
theorem generate_versioned_least (fs : MirrorFS) (fuel : ℕ) (tf : String) (N : ℕ)
    (hN1 : 1 ≤ N)
    (hfree : pathExists fs (versionedCandidate tf N) = false)
    (hocc : ∀ k, 1 ≤ k → k < N → pathExists fs (versionedCandidate tf k) = true)
    (hfuel : N ≤ fuel) :
    generate_versioned_filename fs fuel tf = versionedCandidate tf N := by
  unfold generate_versioned_filename
  congr 1
  exact findVersion_eq _ N hfree fuel 1 hN1 hocc (by omega)

/-- C7 counterexample: with strategy `keep_both`, source `"S"` and a
conflicting target `"T"`, the code copies the SOURCE to the versioned name
`a_v1.txt` and leaves the original target untouched — after resolution the
original target path still holds the old target content and the versioned
path holds the source content, the reverse of the claimed rename-then-copy
layout. -/
theorem claim_C7_keep_both_counterexample :
    readContent (sync_file ⟨id, SyncMode.one_way, ConflictStrategy.keep_both, none,
        fun _ => true, "", "mtime", 100⟩ "/s" "/t" ⟨2024, 1, 2, 3, 4, 5⟩
      (fun p => if p = "/s/a.txt" then some ⟨some "S", 10, 1⟩
        else if p = "/t/a.txt" then some ⟨some "T", 5, 1⟩ else none)
      (fun _ => none) "/s/a.txt").fs "/t/a.txt" = some "T" ∧
    readContent (sync_file ⟨id, SyncMode.one_way, ConflictStrategy.keep_both, none,
        fun _ => true, "", "mtime", 100⟩ "/s" "/t" ⟨2024, 1, 2, 3, 4, 5⟩
      (fun p => if p = "/s/a.txt" then some ⟨some "S", 10, 1⟩
        else if p = "/t/a.txt" then some ⟨some "T", 5, 1⟩ else none)
      (fun _ => none) "/s/a.txt").fs "/t/a_v1.txt" = some "S" ∧
    ¬ (readContent (sync_file ⟨id, SyncMode.one_way, ConflictStrategy.keep_both, none,
        fun _ => true, "", "mtime", 100⟩ "/s" "/t" ⟨2024, 1, 2, 3, 4, 5⟩
      (fun p => if p = "/s/a.txt" then some ⟨some "S", 10, 1⟩
        else if p = "/t/a.txt" then some ⟨some "T", 5, 1⟩ else none)
      (fun _ => none) "/s/a.txt").fs "/t/a.txt" = some "S") := by
  refine ⟨rfl, rfl, by decide⟩

/-- C7 (amended): when the strategy is `keep_both` and a conflict is
resolved, the resolver picks the version-suffixed name `<name>_v<N><ext>`
with `N` the smallest positive integer making that path unique, and the
processor then copies the SOURCE file to that versioned path, leaving the
file at the original target path untouched — so afterwards the original
path holds the old target content and the versioned path holds the
source's content. -/
theorem claim_C7_keep_both_versioned (cfg : ProcCfg) (sb tb : String)
    (ts : DateTime6) (fs : MirrorFS) (st : StateStore) (src : String) (N : ℕ)
    (hdisp : ¬ (cfg.compare_method = "hash" ∧ cfg.task_id ≠ ""))
    (hstrat : cfg.conflict_strategy = ConflictStrategy.keep_both)
    (hsp : cfg.should_process src = true)
    (hconf : check_conflict fs src (joinPath tb (get_relative_path src sb)) = true)
    (hsrc : ∃ c, readContent fs src = some c)
    (hN1 : 1 ≤ N)
    (hfree : pathExists fs
      (versionedCandidate (joinPath tb (get_relative_path src sb)) N) = false)
    (hocc : ∀ k, 1 ≤ k → k < N → pathExists fs
      (versionedCandidate (joinPath tb (get_relative_path src sb)) k) = true)
    (hfuel : N ≤ cfg.fuel)
    (hne : versionedCandidate (joinPath tb (get_relative_path src sb)) N ≠
      joinPath tb (get_relative_path src sb)) :
    (sync_file cfg sb tb ts fs st src).result.action = "copy" ∧
    (sync_file cfg sb tb ts fs st src).result.target_path =
      some (versionedCandidate (joinPath tb (get_relative_path src sb)) N) ∧
    (sync_file cfg sb tb ts fs st src).fs
      (versionedCandidate (joinPath tb (get_relative_path src sb)) N) = fs src ∧
    (sync_file cfg sb tb ts fs st src).fs (joinPath tb (get_relative_path src sb)) =
      fs (joinPath tb (get_relative_path src sb)) ∧
    (sync_file cfg sb tb ts fs st src).st = st := by
  obtain ⟨c, hc⟩ := hsrc
  obtain ⟨n, hfsn, hcont⟩ : ∃ n : FNode, fs src = some n ∧ n.content = some c := by
    unfold readContent at hc
    cases hfs : fs src with
    | none => rw [hfs] at hc; simp at hc
    | some n =>
      rw [hfs] at hc
      simp at hc
      exact ⟨n, rfl, hc⟩
  have hex : pathExists fs (joinPath tb (get_relative_path src sb)) = true := by
    cases h : pathExists fs (joinPath tb (get_relative_path src sb)) with
    | false => simp [check_conflict, h] at hconf
    | true => rfl
  have hgv := generate_versioned_least fs cfg.fuel
    (joinPath tb (get_relative_path src sb)) N hN1 hfree hocc hfuel
  have hres : resolve fs cfg.fuel cfg.user_callback src
      (joinPath tb (get_relative_path src sb)) cfg.conflict_strategy =
      ("keep_both",
        some (versionedCandidate (joinPath tb (get_relative_path src sb)) N),
        "保留双方,源文件保存为 " ++
          basename (versionedCandidate (joinPath tb (get_relative_path src sb)) N)) := by
    rw [hstrat]
    show resolveStrategy fs cfg.fuel src (joinPath tb (get_relative_path src sb))
      ConflictStrategy.keep_both = _
    unfold resolveStrategy
    rw [hgv]
  have hcp : safe_copy_file fs src
      (versionedCandidate (joinPath tb (get_relative_path src sb)) N) =
      (true, fs.set (versionedCandidate (joinPath tb (get_relative_path src sb)) N)
        (some n)) := by
    simp [safe_copy_file, hfsn, hcont]
  have hkb1 : ¬ (("keep_both" : String) = "copy") := by decide
  have hout : sync_file cfg sb tb ts fs st src =
      ⟨⟨true, "copy", src,
          some (versionedCandidate (joinPath tb (get_relative_path src sb)) N),
          "保留双方,源文件保存为 " ++
            basename (versionedCandidate (joinPath tb (get_relative_path src sb)) N),
          get_file_size fs src⟩,
        fs.set (versionedCandidate (joinPath tb (get_relative_path src sb)) N) (some n),
        st,
        [FsEffect.copyFile src
          (versionedCandidate (joinPath tb (get_relative_path src sb)) N)]⟩ := by
    unfold sync_file
    rw [if_neg hdisp]
    unfold sync_file_mtime
    rw [if_neg (by simp [hsp]), if_neg (by simp [hex]), if_pos hconf, hres]
    rw [if_neg hkb1, if_pos rfl]
    simp only [Option.getD_some]
    rw [hcp]
    rfl
  rw [hout]
  refine ⟨rfl, rfl, ?_, ?_, rfl⟩
  · show MirrorFS.set fs _ (some n) _ = fs src
    unfold MirrorFS.set
    rw [if_pos rfl, hfsn]
  · show MirrorFS.set fs _ (some n) _ = _
    unfold MirrorFS.set
    rw [if_neg (fun h => hne h.symm)]

/-- C1 counterexample: a fresh source file in hash mode (no stored state,
target absent).  Per the claim's own definitions this is the
both-changed row (src_changed because there is no stored hash, tgt_changed
because the target is absent), whose action the table gives as
move-conflict-backup / copy / update-state — but the code's backup move of
the non-existent target raises, is caught, and the whole sync returns an
error: nothing is copied and no state is written. -/
theorem claim_C1_hash_table_counterexample :
    (sync_file_with_hash ⟨id, SyncMode.one_way, ConflictStrategy.newest_wins, none,
        fun _ => true, "t1", "hash", 100⟩ "/s" "/t" ⟨2024, 1, 2, 3, 4, 5⟩
      (fun p => if p = "/s/a.txt" then some ⟨some "A", 5, 1⟩ else none)
      (fun _ => none) "/s/a.txt").result.action = "error" ∧
    (sync_file_with_hash ⟨id, SyncMode.one_way, ConflictStrategy.newest_wins, none,
        fun _ => true, "t1", "hash", 100⟩ "/s" "/t" ⟨2024, 1, 2, 3, 4, 5⟩
      (fun p => if p = "/s/a.txt" then some ⟨some "A", 5, 1⟩ else none)
      (fun _ => none) "/s/a.txt").result.success = false ∧
    (sync_file_with_hash ⟨id, SyncMode.one_way, ConflictStrategy.newest_wins, none,
        fun _ => true, "t1", "hash", 100⟩ "/s" "/t" ⟨2024, 1, 2, 3, 4, 5⟩
      (fun p => if p = "/s/a.txt" then some ⟨some "A", 5, 1⟩ else none)
      (fun _ => none) "/s/a.txt").fs "/t/a.txt" = none ∧
    (sync_file_with_hash ⟨id, SyncMode.one_way, ConflictStrategy.newest_wins, none,
        fun _ => true, "t1", "hash", 100⟩ "/s" "/t" ⟨2024, 1, 2, 3, 4, 5⟩
      (fun p => if p = "/s/a.txt" then some ⟨some "A", 5, 1⟩ else none)
      (fun _ => none) "/s/a.txt").st "a.txt" = none ∧
    ¬ ((sync_file_with_hash ⟨id, SyncMode.one_way, ConflictStrategy.newest_wins, none,
        fun _ => true, "t1", "hash", 100⟩ "/s" "/t" ⟨2024, 1, 2, 3, 4, 5⟩
      (fun p => if p = "/s/a.txt" then some ⟨some "A", 5, 1⟩ else none)
      (fun _ => none) "/s/a.txt").result.action = "copy") := by
  refine ⟨rfl, rfl, rfl, rfl, by decide⟩

/-- Hash-table row "neither changed": skip, nothing touched. -/
theorem sync_hash_skip_eq (cfg : ProcCfg) (sb tb : String) (ts : DateTime6)
    (fs : MirrorFS) (st : StateStore) (src rel tf sh : String) (lastH : Option String)
    (hrel : rel = get_relative_path src sb)
    (htf : tf = joinPath tb rel)
    (hsh : sh = get_file_hash cfg.fhash fs src)
    (hlast : lastH = (st rel).map (·.hash))
    (hsp : cfg.should_process src = true)
    (hX : some sh = lastH)
    (he : pathExists fs tf = true)
    (hmatch : some (get_file_hash cfg.fhash fs tf) = lastH) :
    sync_file_with_hash cfg sb tb ts fs st src =
      ⟨⟨true, "skip", src, some tf, "文件已是最新", 0⟩, fs, st, []⟩ := by
  subst hrel
  subst htf
  subst hsh
  subst hlast
  have hXb : decide (some (get_file_hash cfg.fhash fs src) ≠
      ((st (get_relative_path src sb)).map (·.hash))) = false :=
    decide_eq_false (fun hne => hne hX)
  have hYb : (!pathExists fs (joinPath tb (get_relative_path src sb)) ||
      decide ((if pathExists fs (joinPath tb (get_relative_path src sb)) = true then
        some (get_file_hash cfg.fhash fs (joinPath tb (get_relative_path src sb)))
        else none) ≠ ((st (get_relative_path src sb)).map (·.hash)))) = false := by
    rw [he]
    simp only [Bool.not_true, Bool.false_or, if_true]
    exact decide_eq_false (fun hne => hne hmatch)
  simp only [sync_file_with_hash]
  rw [if_neg (show ¬ (cfg.should_process src = false) by simp [hsp])]
  rw [if_pos ⟨hXb, hYb⟩]

/-- Hash-table row "only source changed": copy and record `src_hash`. -/
theorem sync_hash_copy_eq (cfg : ProcCfg) (sb tb : String) (ts : DateTime6)
    (fs : MirrorFS) (st : StateStore) (src rel tf sh : String) (lastH : Option String)
    (n : FNode) (c : String)
    (hrel : rel = get_relative_path src sb)
    (htf : tf = joinPath tb rel)
    (hsh : sh = get_file_hash cfg.fhash fs src)
    (hlast : lastH = (st rel).map (·.hash))
    (hsp : cfg.should_process src = true)
    (hfsn : fs src = some n) (hcont : n.content = some c)
    (hX : some sh ≠ lastH)
    (he : pathExists fs tf = true)
    (hmatch : some (get_file_hash cfg.fhash fs tf) = lastH) :
    sync_file_with_hash cfg sb tb ts fs st src =
      ⟨⟨true, "copy", src, some tf, "源文件变更，更新目标", get_file_size fs src⟩,
        fs.set tf (some n),
        st.set rel ⟨sh, n.mtime, n.size⟩,
        [FsEffect.copyFile src tf, FsEffect.updState rel sh]⟩ := by
  subst hrel
  subst htf
  subst hsh
  subst hlast
  have hXb : decide (some (get_file_hash cfg.fhash fs src) ≠
      ((st (get_relative_path src sb)).map (·.hash))) = true := decide_eq_true hX
  have hYb : (!pathExists fs (joinPath tb (get_relative_path src sb)) ||
      decide ((if pathExists fs (joinPath tb (get_relative_path src sb)) = true then
        some (get_file_hash cfg.fhash fs (joinPath tb (get_relative_path src sb)))
        else none) ≠ ((st (get_relative_path src sb)).map (·.hash)))) = false := by
    rw [he]
    simp only [Bool.not_true, Bool.false_or, if_true]
    exact decide_eq_false (fun hne => hne hmatch)
  have hcpeq : safe_copy_file fs src (joinPath tb (get_relative_path src sb)) =
      (true, fs.set (joinPath tb (get_relative_path src sb)) (some n)) := by
    simp [safe_copy_file, hfsn, hcont]
  have hsetsrc : (fs.set (joinPath tb (get_relative_path src sb)) (some n)) src = some n := by
    unfold MirrorFS.set
    by_cases h : src = joinPath tb (get_relative_path src sb)
    · rw [if_pos h]
    · rw [if_neg h, hfsn]
  have hupd : update_state st (fs.set (joinPath tb (get_relative_path src sb)) (some n))
      (get_relative_path src sb) (get_file_hash cfg.fhash fs src) src =
      st.set (get_relative_path src sb)
        ⟨get_file_hash cfg.fhash fs src, n.mtime, n.size⟩ := by
    unfold update_state
    rw [hsetsrc]
  have heff : updStateEffects (fs.set (joinPath tb (get_relative_path src sb)) (some n))
      (get_relative_path src sb) (get_file_hash cfg.fhash fs src) src =
      [FsEffect.updState (get_relative_path src sb) (get_file_hash cfg.fhash fs src)] := by
    unfold updStateEffects
    rw [hsetsrc]
  simp only [sync_file_with_hash]
  rw [if_neg (show ¬ (cfg.should_process src = false) by simp [hsp])]
  rw [if_neg (fun hcc => absurd (hXb.symm.trans hcc.1) (by decide))]
  rw [if_pos ⟨hXb, hYb⟩]
  rw [hcpeq]
  simp only [hupd, heff]
  rw [if_pos trivial]

/-- Hash-table row "only target changed", two-way: skip, deferring to the
reverse pass. -/
theorem sync_hash_defer_eq (cfg : ProcCfg) (sb tb : String) (ts : DateTime6)
    (fs : MirrorFS) (st : StateStore) (src rel tf sh : String) (lastH : Option String)
    (hrel : rel = get_relative_path src sb)
    (htf : tf = joinPath tb rel)
    (hsh : sh = get_file_hash cfg.fhash fs src)
    (hlast : lastH = (st rel).map (·.hash))
    (hsp : cfg.should_process src = true)
    (hX : some sh = lastH)
    (hTC : pathExists fs tf = false ∨ some (get_file_hash cfg.fhash fs tf) ≠ lastH)
    (hm : cfg.sync_mode = SyncMode.two_way) :
    sync_file_with_hash cfg sb tb ts fs st src =
      ⟨⟨true, "skip", src, some tf, "目标变更，等待反向同步", 0⟩, fs, st, []⟩ := by
  subst hrel
  subst htf
  subst hsh
  subst hlast
  have hXb : decide (some (get_file_hash cfg.fhash fs src) ≠
      ((st (get_relative_path src sb)).map (·.hash))) = false :=
    decide_eq_false (fun hne => hne hX)
  have hYb : (!pathExists fs (joinPath tb (get_relative_path src sb)) ||
      decide ((if pathExists fs (joinPath tb (get_relative_path src sb)) = true then
        some (get_file_hash cfg.fhash fs (joinPath tb (get_relative_path src sb)))
        else none) ≠ ((st (get_relative_path src sb)).map (·.hash)))) = true := by
    cases he : pathExists fs (joinPath tb (get_relative_path src sb)) with
    | false => simp
    | true =>
      rcases hTC with h | h
      · exact absurd (he.symm.trans h) (by decide)
      · simp only [Bool.not_true, Bool.false_or, if_true]
        exact decide_eq_true h
  simp only [sync_file_with_hash]
  rw [if_neg (show ¬ (cfg.should_process src = false) by simp [hsp])]
  rw [if_neg (fun hcc => absurd (hYb.symm.trans hcc.2) (by decide))]
  rw [if_neg (fun hcc => absurd (hXb.symm.trans hcc.1) (by decide))]
  rw [if_pos ⟨hXb, hYb⟩]
  rw [if_pos hm]

/-- Hash-table row "only target changed", one-way: restore the target from
the source and record state. -/
theorem sync_hash_restore_eq (cfg : ProcCfg) (sb tb : String) (ts : DateTime6)
    (fs : MirrorFS) (st : StateStore) (src rel tf sh : String) (lastH : Option String)
    (n : FNode) (c : String)
    (hrel : rel = get_relative_path src sb)
    (htf : tf = joinPath tb rel)
    (hsh : sh = get_file_hash cfg.fhash fs src)
    (hlast : lastH = (st rel).map (·.hash))
    (hsp : cfg.should_process src = true)
    (hfsn : fs src = some n) (hcont : n.content = some c)
    (hX : some sh = lastH)
    (hTC : pathExists fs tf = false ∨ some (get_file_hash cfg.fhash fs tf) ≠ lastH)
    (hm : cfg.sync_mode = SyncMode.one_way) :
    sync_file_with_hash cfg sb tb ts fs st src =
      ⟨⟨true, "copy", src, some tf, "纠正目标变更，还原为源版本", get_file_size fs src⟩,
        fs.set tf (some n),
        st.set rel ⟨sh, n.mtime, n.size⟩,
        [FsEffect.copyFile src tf, FsEffect.updState rel sh]⟩ := by
  subst hrel
  subst htf
  subst hsh
  subst hlast
  have hXb : decide (some (get_file_hash cfg.fhash fs src) ≠
      ((st (get_relative_path src sb)).map (·.hash))) = false :=
    decide_eq_false (fun hne => hne hX)
  have hYb : (!pathExists fs (joinPath tb (get_relative_path src sb)) ||
      decide ((if pathExists fs (joinPath tb (get_relative_path src sb)) = true then
        some (get_file_hash cfg.fhash fs (joinPath tb (get_relative_path src sb)))
        else none) ≠ ((st (get_relative_path src sb)).map (·.hash)))) = true := by
    cases he : pathExists fs (joinPath tb (get_relative_path src sb)) with
    | false => simp
    | true =>
      rcases hTC with h | h
      · exact absurd (he.symm.trans h) (by decide)
      · simp only [Bool.not_true, Bool.false_or, if_true]
        exact decide_eq_true h
  have hcpeq : safe_copy_file fs src (joinPath tb (get_relative_path src sb)) =
      (true, fs.set (joinPath tb (get_relative_path src sb)) (some n)) := by
    simp [safe_copy_file, hfsn, hcont]
  have hsetsrc : (fs.set (joinPath tb (get_relative_path src sb)) (some n)) src = some n := by
    unfold MirrorFS.set
    by_cases h : src = joinPath tb (get_relative_path src sb)
    · rw [if_pos h]
    · rw [if_neg h, hfsn]
  have hupd : update_state st (fs.set (joinPath tb (get_relative_path src sb)) (some n))
      (get_relative_path src sb) (get_file_hash cfg.fhash fs src) src =
      st.set (get_relative_path src sb)
        ⟨get_file_hash cfg.fhash fs src, n.mtime, n.size⟩ := by
    unfold update_state
    rw [hsetsrc]
  have heff : updStateEffects (fs.set (joinPath tb (get_relative_path src sb)) (some n))
      (get_relative_path src sb) (get_file_hash cfg.fhash fs src) src =
      [FsEffect.updState (get_relative_path src sb) (get_file_hash cfg.fhash fs src)] := by
    unfold updStateEffects
    rw [hsetsrc]
  simp only [sync_file_with_hash]
  rw [if_neg (show ¬ (cfg.should_process src = false) by simp [hsp])]
  rw [if_neg (fun hcc => absurd (hYb.symm.trans hcc.2) (by decide))]
  rw [if_neg (fun hcc => absurd (hXb.symm.trans hcc.1) (by decide))]
  rw [if_pos ⟨hXb, hYb⟩]
  rw [if_neg (by rw [hm]; exact fun hh => SyncMode.noConfusion hh)]
  rw [hcpeq]
  simp only [hupd, heff]
  rw [if_pos trivial]

/-- Hash-table row "both changed, hashes equal": skip but record the
source hash. -/
theorem sync_hash_bothequal_eq (cfg : ProcCfg) (sb tb : String) (ts : DateTime6)
    (fs : MirrorFS) (st : StateStore) (src rel tf sh : String) (lastH : Option String)
    (n : FNode)
    (hrel : rel = get_relative_path src sb)
    (htf : tf = joinPath tb rel)
    (hsh : sh = get_file_hash cfg.fhash fs src)
    (hlast : lastH = (st rel).map (·.hash))
    (hsp : cfg.should_process src = true)
    (hfsn : fs src = some n)
    (hX : some sh ≠ lastH)
    (he : pathExists fs tf = true)
    (heq : get_file_hash cfg.fhash fs tf = sh) :
    sync_file_with_hash cfg sb tb ts fs st src =
      ⟨⟨true, "skip", src, some tf, "双方变更但内容一致", 0⟩,
        fs,
        st.set rel ⟨sh, n.mtime, n.size⟩,
        [FsEffect.updState rel sh]⟩ := by
  subst hrel
  subst htf
  subst hsh
  subst hlast
  have hXb : decide (some (get_file_hash cfg.fhash fs src) ≠
      ((st (get_relative_path src sb)).map (·.hash))) = true := decide_eq_true hX
  have hYb : (!pathExists fs (joinPath tb (get_relative_path src sb)) ||
      decide ((if pathExists fs (joinPath tb (get_relative_path src sb)) = true then
        some (get_file_hash cfg.fhash fs (joinPath tb (get_relative_path src sb)))
        else none) ≠ ((st (get_relative_path src sb)).map (·.hash)))) = true := by
    rw [he]
    simp only [Bool.not_true, Bool.false_or, if_true]
    refine decide_eq_true ?_
    rw [heq]
    exact hX
  have hg : (if pathExists fs (joinPath tb (get_relative_path src sb)) = true then
      some (get_file_hash cfg.fhash fs (joinPath tb (get_relative_path src sb)))
      else none) = some (get_file_hash cfg.fhash fs src) := by
    rw [he]
    simp only [if_true]
    exact congrArg some heq
  have hupd : update_state st fs
      (get_relative_path src sb) (get_file_hash cfg.fhash fs src) src =
      st.set (get_relative_path src sb)
        ⟨get_file_hash cfg.fhash fs src, n.mtime, n.size⟩ := by
    unfold update_state
    rw [hfsn]
  have heff : updStateEffects fs
      (get_relative_path src sb) (get_file_hash cfg.fhash fs src) src =
      [FsEffect.updState (get_relative_path src sb) (get_file_hash cfg.fhash fs src)] := by
    unfold updStateEffects
    rw [hfsn]
  simp only [sync_file_with_hash]
  rw [if_neg (show ¬ (cfg.should_process src = false) by simp [hsp])]
  rw [if_neg (fun hcc => absurd (hXb.symm.trans hcc.1) (by decide))]
  rw [if_neg (fun hcc => absurd (hYb.symm.trans hcc.2) (by decide))]
  rw [if_neg (fun hcc => absurd (hXb.symm.trans hcc.1) (by decide))]
  rw [if_pos hg]
  simp only [hupd, heff]

/-- Hash-table row "both changed, hashes differ, target present": move the
target to the conflict-backup name, copy the source over, record state. -/
theorem sync_hash_conflict_eq (cfg : ProcCfg) (sb tb : String) (ts : DateTime6)
    (fs : MirrorFS) (st : StateStore) (src rel tf sh : String) (lastH : Option String)
    (n tn : FNode) (c : String)
    (hrel : rel = get_relative_path src sb)
    (htf : tf = joinPath tb rel)
    (hsh : sh = get_file_hash cfg.fhash fs src)
    (hlast : lastH = (st rel).map (·.hash))
    (hsp : cfg.should_process src = true)
    (hfsn : fs src = some n) (hcont : n.content = some c)
    (htn : fs tf = some tn)
    (hX : some sh ≠ lastH)
    (hTC : pathExists fs tf = false ∨ some (get_file_hash cfg.fhash fs tf) ≠ lastH)
    (hth : get_file_hash cfg.fhash fs tf ≠ sh)
    (hd1 : src ≠ tf)
    (hd2 : src ≠ conflictName tf ts) :
    sync_file_with_hash cfg sb tb ts fs st src =
      ⟨⟨true, "copy", src, some tf,
          "双方冲突，已备份旧版至 " ++ basename (conflictName tf ts),
          get_file_size (((fs.set (conflictName tf ts) (some tn)).set tf none)) src⟩,
        (((fs.set (conflictName tf ts) (some tn)).set tf none)).set tf (some n),
        st.set rel ⟨sh, n.mtime, n.size⟩,
        [FsEffect.moveFile tf (conflictName tf ts),
         FsEffect.copyFile src tf,
         FsEffect.updState rel sh]⟩ := by
  subst hrel
  subst htf
  subst hsh
  subst hlast
  have he : pathExists fs (joinPath tb (get_relative_path src sb)) = true := by
    unfold pathExists
    rw [htn]
    rfl
  have hXb : decide (some (get_file_hash cfg.fhash fs src) ≠
      ((st (get_relative_path src sb)).map (·.hash))) = true := decide_eq_true hX
  have hYb : (!pathExists fs (joinPath tb (get_relative_path src sb)) ||
      decide ((if pathExists fs (joinPath tb (get_relative_path src sb)) = true then
        some (get_file_hash cfg.fhash fs (joinPath tb (get_relative_path src sb)))
        else none) ≠ ((st (get_relative_path src sb)).map (·.hash)))) = true := by
    rw [he]
    simp only [Bool.not_true, Bool.false_or, if_true]
    refine decide_eq_true ?_
    rcases hTC with h | h
    · exact absurd (he.symm.trans h) (by decide)
    · exact h
  have hgne : ¬ ((if pathExists fs (joinPath tb (get_relative_path src sb)) = true then
      some (get_file_hash cfg.fhash fs (joinPath tb (get_relative_path src sb)))
      else none) = some (get_file_hash cfg.fhash fs src)) := by
    rw [he]
    simp only [if_true, Option.some.injEq]
    exact hth
  have hfs1src : (((fs.set (conflictName (joinPath tb (get_relative_path src sb)) ts)
      (some tn)).set (joinPath tb (get_relative_path src sb)) none)) src = some n := by
    unfold MirrorFS.set
    rw [if_neg hd1, if_neg hd2, hfsn]
  have hcp1 : safe_copy_file (((fs.set
      (conflictName (joinPath tb (get_relative_path src sb)) ts)
      (some tn)).set (joinPath tb (get_relative_path src sb)) none)) src
      (joinPath tb (get_relative_path src sb)) =
      (true, ((((fs.set (conflictName (joinPath tb (get_relative_path src sb)) ts)
        (some tn)).set (joinPath tb (get_relative_path src sb)) none)).set
          (joinPath tb (get_relative_path src sb)) (some n))) := by
    simp [safe_copy_file, hfs1src, hcont]
  have hcp1src : (((((fs.set (conflictName (joinPath tb (get_relative_path src sb)) ts)
      (some tn)).set (joinPath tb (get_relative_path src sb)) none)).set
        (joinPath tb (get_relative_path src sb)) (some n))) src = some n := by
    show MirrorFS.set _ _ _ _ = _
    unfold MirrorFS.set
    rw [if_neg hd1]
    exact hfs1src
  have hupd : update_state st (((((fs.set
      (conflictName (joinPath tb (get_relative_path src sb)) ts)
      (some tn)).set (joinPath tb (get_relative_path src sb)) none)).set
        (joinPath tb (get_relative_path src sb)) (some n)))
      (get_relative_path src sb) (get_file_hash cfg.fhash fs src) src =
      st.set (get_relative_path src sb)
        ⟨get_file_hash cfg.fhash fs src, n.mtime, n.size⟩ := by
    unfold update_state
    rw [hcp1src]
  have heff : updStateEffects (((((fs.set
      (conflictName (joinPath tb (get_relative_path src sb)) ts)
      (some tn)).set (joinPath tb (get_relative_path src sb)) none)).set
        (joinPath tb (get_relative_path src sb)) (some n)))
      (get_relative_path src sb) (get_file_hash cfg.fhash fs src) src =
      [FsEffect.updState (get_relative_path src sb) (get_file_hash cfg.fhash fs src)] := by
    unfold updStateEffects
    rw [hcp1src]
  simp only [sync_file_with_hash]
  rw [if_neg (show ¬ (cfg.should_process src = false) by simp [hsp])]
  rw [if_neg (fun hcc => absurd (hXb.symm.trans hcc.1) (by decide))]
  rw [if_neg (fun hcc => absurd (hYb.symm.trans hcc.2) (by decide))]
  rw [if_neg (fun hcc => absurd (hXb.symm.trans hcc.1) (by decide))]
  rw [if_neg hgne]
  simp only [htn]
  rw [hcp1]
  simp only [hupd, heff]
  rw [if_pos trivial]

/-- Hash-table row "both changed, target absent" (the amended row): the
conflict-backup move of the missing target fails and an error is
returned; nothing is copied, no state is written. -/
theorem sync_hash_conflict_absent_eq (cfg : ProcCfg) (sb tb : String)
    (ts : DateTime6) (fs : MirrorFS) (st : StateStore)
    (src rel tf sh : String) (lastH : Option String)
    (hrel : rel = get_relative_path src sb)
    (htf : tf = joinPath tb rel)
    (hsh : sh = get_file_hash cfg.fhash fs src)
    (hlast : lastH = (st rel).map (·.hash))
    (hsp : cfg.should_process src = true)
    (hX : some sh ≠ lastH)
    (hnone : fs tf = none) :
    sync_file_with_hash cfg sb tb ts fs st src =
      ⟨⟨false, "error", src, some tf, "备份冲突文件失败", 0⟩, fs, st, []⟩ := by
  subst hrel
  subst htf
  subst hsh
  subst hlast
  have he : pathExists fs (joinPath tb (get_relative_path src sb)) = false := by
    unfold pathExists
    rw [hnone]
    rfl
  have hXb : decide (some (get_file_hash cfg.fhash fs src) ≠
      ((st (get_relative_path src sb)).map (·.hash))) = true := decide_eq_true hX
  have hYb : (!pathExists fs (joinPath tb (get_relative_path src sb)) ||
      decide ((if pathExists fs (joinPath tb (get_relative_path src sb)) = true then
        some (get_file_hash cfg.fhash fs (joinPath tb (get_relative_path src sb)))
        else none) ≠ ((st (get_relative_path src sb)).map (·.hash)))) = true := by
    rw [he]
    simp
  have hgne : ¬ ((if pathExists fs (joinPath tb (get_relative_path src sb)) = true then
      some (get_file_hash cfg.fhash fs (joinPath tb (get_relative_path src sb)))
      else none) = some (get_file_hash cfg.fhash fs src)) := by
    rw [he]
    simp
  simp only [sync_file_with_hash]
  rw [if_neg (show ¬ (cfg.should_process src = false) by simp [hsp])]
  rw [if_neg (fun hcc => absurd (hXb.symm.trans hcc.1) (by decide))]
  rw [if_neg (fun hcc => absurd (hYb.symm.trans hcc.2) (by decide))]
  rw [if_neg (fun hcc => absurd (hXb.symm.trans hcc.1) (by decide))]
  rw [if_neg hgne]
  simp only [hnone]

/-- C1 (amended): the hash-mode per-file forward table, with `last` the
stored hash, `src_changed = (src_hash ≠ last)` and
`tgt_changed = (target absent ∨ tgt_hash ≠ last)`: neither changed → skip;
only source changed → copy to target and record `src_hash`; only target
changed → two_way skips (deferring to the reverse pass) while one_way
restores the target from the source and records state; both changed with
equal hashes → skip with state recorded; both changed with different
hashes AND the target present → move the target to
`<name>.conflict.<YYYYMMDDhhmmss><ext>`, then copy the source over the
target and record `src_hash`; both changed with the target ABSENT (the
case the original claim's table mislabels) → the conflict-backup move
fails and the call returns an error with no copy and no state update.
`sync_file` dispatches here exactly when `compare_method = "hash"` and the
task id is non-empty. -/
theorem claim_C1_hash_table (cfg : ProcCfg) (sb tb : String) (ts : DateTime6)
    (fs : MirrorFS) (st : StateStore) (src : String)
    (hdisp : cfg.compare_method = "hash" ∧ cfg.task_id ≠ "")
    (hsp : cfg.should_process src = true)
    (hsrc : ∃ c, readContent fs src = some c) :
    (sync_file cfg sb tb ts fs st src = sync_file_with_hash cfg sb tb ts fs st src) ∧
    (¬ (some (get_file_hash cfg.fhash fs src) ≠
          ((st (get_relative_path src sb)).map (·.hash))) →
      ¬ (pathExists fs (joinPath tb (get_relative_path src sb)) = false ∨
          some (get_file_hash cfg.fhash fs (joinPath tb (get_relative_path src sb))) ≠
            ((st (get_relative_path src sb)).map (·.hash))) →
      (sync_file_with_hash cfg sb tb ts fs st src).result.action = "skip" ∧
      (sync_file_with_hash cfg sb tb ts fs st src).fs = fs ∧
      (sync_file_with_hash cfg sb tb ts fs st src).st = st ∧
      (sync_file_with_hash cfg sb tb ts fs st src).effects = []) ∧
    ((some (get_file_hash cfg.fhash fs src) ≠
          ((st (get_relative_path src sb)).map (·.hash))) →
      ¬ (pathExists fs (joinPath tb (get_relative_path src sb)) = false ∨
          some (get_file_hash cfg.fhash fs (joinPath tb (get_relative_path src sb))) ≠
            ((st (get_relative_path src sb)).map (·.hash))) →
      (sync_file_with_hash cfg sb tb ts fs st src).result.action = "copy" ∧
      (sync_file_with_hash cfg sb tb ts fs st src).fs
        (joinPath tb (get_relative_path src sb)) = fs src ∧
      (∀ q, q ≠ joinPath tb (get_relative_path src sb) →
        (sync_file_with_hash cfg sb tb ts fs st src).fs q = fs q) ∧
      ((sync_file_with_hash cfg sb tb ts fs st src).st
        (get_relative_path src sb)).map (·.hash) =
          some (get_file_hash cfg.fhash fs src) ∧
      (∀ r, r ≠ get_relative_path src sb →
        (sync_file_with_hash cfg sb tb ts fs st src).st r = st r) ∧
      (sync_file_with_hash cfg sb tb ts fs st src).effects =
        [FsEffect.copyFile src (joinPath tb (get_relative_path src sb)),
         FsEffect.updState (get_relative_path src sb)
           (get_file_hash cfg.fhash fs src)]) ∧
    (¬ (some (get_file_hash cfg.fhash fs src) ≠
          ((st (get_relative_path src sb)).map (·.hash))) →
      (pathExists fs (joinPath tb (get_relative_path src sb)) = false ∨
          some (get_file_hash cfg.fhash fs (joinPath tb (get_relative_path src sb))) ≠
            ((st (get_relative_path src sb)).map (·.hash))) →
      cfg.sync_mode = SyncMode.two_way →
      (sync_file_with_hash cfg sb tb ts fs st src).result.action = "skip" ∧
      (sync_file_with_hash cfg sb tb ts fs st src).fs = fs ∧
      (sync_file_with_hash cfg sb tb ts fs st src).st = st ∧
      (sync_file_with_hash cfg sb tb ts fs st src).effects = []) ∧
    (¬ (some (get_file_hash cfg.fhash fs src) ≠
          ((st (get_relative_path src sb)).map (·.hash))) →
      (pathExists fs (joinPath tb (get_relative_path src sb)) = false ∨
          some (get_file_hash cfg.fhash fs (joinPath tb (get_relative_path src sb))) ≠
            ((st (get_relative_path src sb)).map (·.hash))) →
      cfg.sync_mode = SyncMode.one_way →
      (sync_file_with_hash cfg sb tb ts fs st src).result.action = "copy" ∧
      (sync_file_with_hash cfg sb tb ts fs st src).fs
        (joinPath tb (get_relative_path src sb)) = fs src ∧
      ((sync_file_with_hash cfg sb tb ts fs st src).st
        (get_relative_path src sb)).map (·.hash) =
          some (get_file_hash cfg.fhash fs src)) ∧
    ((some (get_file_hash cfg.fhash fs src) ≠
          ((st (get_relative_path src sb)).map (·.hash))) →
      pathExists fs (joinPath tb (get_relative_path src sb)) = true →
      get_file_hash cfg.fhash fs (joinPath tb (get_relative_path src sb)) =
        get_file_hash cfg.fhash fs src →
      (sync_file_with_hash cfg sb tb ts fs st src).result.action = "skip" ∧
      (sync_file_with_hash cfg sb tb ts fs st src).fs = fs ∧
      ((sync_file_with_hash cfg sb tb ts fs st src).st
        (get_relative_path src sb)).map (·.hash) =
          some (get_file_hash cfg.fhash fs src) ∧
      (sync_file_with_hash cfg sb tb ts fs st src).effects =
        [FsEffect.updState (get_relative_path src sb)
          (get_file_hash cfg.fhash fs src)]) ∧
    ((some (get_file_hash cfg.fhash fs src) ≠
          ((st (get_relative_path src sb)).map (·.hash))) →
      (pathExists fs (joinPath tb (get_relative_path src sb)) = false ∨
          some (get_file_hash cfg.fhash fs (joinPath tb (get_relative_path src sb))) ≠
            ((st (get_relative_path src sb)).map (·.hash))) →
      pathExists fs (joinPath tb (get_relative_path src sb)) = true →
      get_file_hash cfg.fhash fs (joinPath tb (get_relative_path src sb)) ≠
        get_file_hash cfg.fhash fs src →
      src ≠ joinPath tb (get_relative_path src sb) →
      src ≠ conflictName (joinPath tb (get_relative_path src sb)) ts →
      conflictName (joinPath tb (get_relative_path src sb)) ts ≠
        joinPath tb (get_relative_path src sb) →
      (sync_file_with_hash cfg sb tb ts fs st src).result.action = "copy" ∧
      (sync_file_with_hash cfg sb tb ts fs st src).fs
        (conflictName (joinPath tb (get_relative_path src sb)) ts) =
          fs (joinPath tb (get_relative_path src sb)) ∧
      (sync_file_with_hash cfg sb tb ts fs st src).fs
        (joinPath tb (get_relative_path src sb)) = fs src ∧
      ((sync_file_with_hash cfg sb tb ts fs st src).st
        (get_relative_path src sb)).map (·.hash) =
          some (get_file_hash cfg.fhash fs src) ∧
      (sync_file_with_hash cfg sb tb ts fs st src).effects =
        [FsEffect.moveFile (joinPath tb (get_relative_path src sb))
           (conflictName (joinPath tb (get_relative_path src sb)) ts),
         FsEffect.copyFile src (joinPath tb (get_relative_path src sb)),
         FsEffect.updState (get_relative_path src sb)
           (get_file_hash cfg.fhash fs src)]) ∧
    ((some (get_file_hash cfg.fhash fs src) ≠
          ((st (get_relative_path src sb)).map (·.hash))) →
      pathExists fs (joinPath tb (get_relative_path src sb)) = false →
      (sync_file_with_hash cfg sb tb ts fs st src).result.action = "error" ∧
      (sync_file_with_hash cfg sb tb ts fs st src).result.success = false ∧
      (sync_file_with_hash cfg sb tb ts fs st src).fs = fs ∧
      (sync_file_with_hash cfg sb tb ts fs st src).st = st ∧
      (sync_file_with_hash cfg sb tb ts fs st src).effects = []) := by
  obtain ⟨c, hc⟩ := hsrc
  obtain ⟨n, hfsn, hcont⟩ : ∃ n : FNode, fs src = some n ∧ n.content = some c := by
    unfold readContent at hc
    cases hfs : fs src with
    | none => rw [hfs] at hc; simp at hc
    | some n =>
      rw [hfs] at hc
      simp at hc
      exact ⟨n, rfl, hc⟩
  refine ⟨?_, ?_, ?_, ?_, ?_, ?_, ?_, ?_⟩
  · unfold sync_file
    rw [if_pos hdisp]
  · intro h1 h2
    have hX := not_not.mp h1
    have he : pathExists fs (joinPath tb (get_relative_path src sb)) = true := by
      cases h : pathExists fs (joinPath tb (get_relative_path src sb))
      · exact absurd (Or.inl h) h2
      · rfl
    have hmatch := not_not.mp (fun hne => h2 (Or.inr hne))
    rw [sync_hash_skip_eq cfg sb tb ts fs st src _ _ _ _ rfl rfl rfl rfl hsp hX he hmatch]
    exact ⟨rfl, rfl, rfl, rfl⟩
  · intro h1 h2
    have he : pathExists fs (joinPath tb (get_relative_path src sb)) = true := by
      cases h : pathExists fs (joinPath tb (get_relative_path src sb))
      · exact absurd (Or.inl h) h2
      · rfl
    have hmatch := not_not.mp (fun hne => h2 (Or.inr hne))
    rw [sync_hash_copy_eq cfg sb tb ts fs st src _ _ _ _ n c rfl rfl rfl rfl hsp hfsn
      hcont h1 he hmatch]
    refine ⟨rfl, ?_, ?_, ?_, ?_, rfl⟩
    · show MirrorFS.set fs _ (some n) _ = fs src
      unfold MirrorFS.set
      rw [if_pos rfl, hfsn]
    · intro q hq
      show MirrorFS.set fs _ (some n) q = fs q
      unfold MirrorFS.set
      rw [if_neg hq]
    · show ((StateStore.set st _ _) (get_relative_path src sb)).map _ = _
      unfold StateStore.set
      simp
    · intro r hr
      show (StateStore.set st _ _) r = st r
      unfold StateStore.set
      rw [if_neg hr]
  · intro h1 h2 hm
    have hX := not_not.mp h1
    rw [sync_hash_defer_eq cfg sb tb ts fs st src _ _ _ _ rfl rfl rfl rfl hsp hX h2 hm]
    exact ⟨rfl, rfl, rfl, rfl⟩
  · intro h1 h2 hm
    have hX := not_not.mp h1
    rw [sync_hash_restore_eq cfg sb tb ts fs st src _ _ _ _ n c rfl rfl rfl rfl hsp hfsn
      hcont hX h2 hm]
    refine ⟨rfl, ?_, ?_⟩
    · show MirrorFS.set fs _ (some n) _ = fs src
      unfold MirrorFS.set
      rw [if_pos rfl, hfsn]
    · show ((StateStore.set st _ _) (get_relative_path src sb)).map _ = _
      unfold StateStore.set
      simp
  · intro h1 he heq
    rw [sync_hash_bothequal_eq cfg sb tb ts fs st src _ _ _ _ n rfl rfl rfl rfl hsp hfsn
      h1 he heq]
    refine ⟨rfl, rfl, ?_, rfl⟩
    show ((StateStore.set st _ _) (get_relative_path src sb)).map _ = _
    unfold StateStore.set
    simp
  · intro h1 h2 he hth hd1 hd2 hd3
    obtain ⟨tn, htn⟩ : ∃ tn : FNode,
        fs (joinPath tb (get_relative_path src sb)) = some tn := by
      unfold pathExists at he
      cases h : fs (joinPath tb (get_relative_path src sb)) with
      | none => rw [h] at he; simp at he
      | some tn => exact ⟨tn, rfl⟩
    rw [sync_hash_conflict_eq cfg sb tb ts fs st src _ _ _ _ n tn c rfl rfl rfl rfl hsp
      hfsn hcont htn h1 h2 hth hd1 hd2]
    refine ⟨rfl, ?_, ?_, ?_, rfl⟩
    · show MirrorFS.set _ _ (some n) _ = _
      unfold MirrorFS.set
      rw [if_neg hd3, if_neg (fun hh => hd3 hh), if_pos rfl, htn]
    · show MirrorFS.set _ _ (some n) _ = fs src
      unfold MirrorFS.set
      rw [if_pos rfl, hfsn]
    · show ((StateStore.set st _ _) (get_relative_path src sb)).map _ = _
      unfold StateStore.set
      simp
  · intro h1 he
    have hnone : fs (joinPath tb (get_relative_path src sb)) = none := by
      unfold pathExists at he
      cases h : fs (joinPath tb (get_relative_path src sb)) with
      | none => rfl
      | some tn => rw [h] at he; simp at he
    rw [sync_hash_conflict_absent_eq cfg sb tb ts fs st src _ _ _ _ rfl rfl rfl rfl hsp
      h1 hnone]
    exact ⟨rfl, rfl, rfl, rfl, rfl⟩

/-- Witness for C1 at the "only source changed" row: source hash `A`,
stored and target hash `T`; the file is copied and the state becomes `A`. -/
theorem claim_C1_hash_table_witness :
    (sync_file_with_hash ⟨id, SyncMode.one_way, ConflictStrategy.newest_wins, none,
        fun _ => true, "t1", "hash", 100⟩ "/s" "/t" ⟨2024, 1, 2, 3, 4, 5⟩
      (fun p => if p = "/s/a.txt" then some ⟨some "A", 9, 1⟩
        else if p = "/t/a.txt" then some ⟨some "T", 5, 1⟩ else none)
      (fun r => if r = "a.txt" then some ⟨"T", 5, 1⟩ else none)
      "/s/a.txt").result.action = "copy" ∧
    (sync_file_with_hash ⟨id, SyncMode.one_way, ConflictStrategy.newest_wins, none,
        fun _ => true, "t1", "hash", 100⟩ "/s" "/t" ⟨2024, 1, 2, 3, 4, 5⟩
      (fun p => if p = "/s/a.txt" then some ⟨some "A", 9, 1⟩
        else if p = "/t/a.txt" then some ⟨some "T", 5, 1⟩ else none)
      (fun r => if r = "a.txt" then some ⟨"T", 5, 1⟩ else none)
      "/s/a.txt").fs "/t/a.txt" =
      (fun p => if p = "/s/a.txt" then some (⟨some "A", 9, 1⟩ : FNode)
        else if p = "/t/a.txt" then some ⟨some "T", 5, 1⟩ else none) "/s/a.txt" ∧
    ((sync_file_with_hash ⟨id, SyncMode.one_way, ConflictStrategy.newest_wins, none,
        fun _ => true, "t1", "hash", 100⟩ "/s" "/t" ⟨2024, 1, 2, 3, 4, 5⟩
      (fun p => if p = "/s/a.txt" then some ⟨some "A", 9, 1⟩
        else if p = "/t/a.txt" then some ⟨some "T", 5, 1⟩ else none)
      (fun r => if r = "a.txt" then some ⟨"T", 5, 1⟩ else none)
      "/s/a.txt").st "a.txt").map (·.hash) = some "A" := by
  have h := (claim_C1_hash_table ⟨id, SyncMode.one_way, ConflictStrategy.newest_wins,
      none, fun _ => true, "t1", "hash", 100⟩ "/s" "/t" ⟨2024, 1, 2, 3, 4, 5⟩
    (fun p => if p = "/s/a.txt" then some ⟨some "A", 9, 1⟩
      else if p = "/t/a.txt" then some ⟨some "T", 5, 1⟩ else none)
    (fun r => if r = "a.txt" then some ⟨"T", 5, 1⟩ else none)
    "/s/a.txt" ⟨rfl, by decide⟩ rfl ⟨"A", rfl⟩).2.2.1 (by decide) (by decide)
  exact ⟨h.1, h.2.1, h.2.2.2.1⟩

/-- Witness for C7 at the concrete keep_both scenario; the versioned pick is
`a_v1.txt` and the source lands there. -/
theorem claim_C7_keep_both_versioned_witness :
    (sync_file ⟨id, SyncMode.one_way, ConflictStrategy.keep_both, none,
        fun _ => true, "", "mtime", 100⟩ "/s" "/t" ⟨2024, 1, 2, 3, 4, 5⟩
      (fun p => if p = "/s/a.txt" then some ⟨some "S", 10, 1⟩
        else if p = "/t/a.txt" then some ⟨some "T", 5, 1⟩ else none)
      (fun _ => none) "/s/a.txt").result.target_path = some "/t/a_v1.txt" ∧
    (sync_file ⟨id, SyncMode.one_way, ConflictStrategy.keep_both, none,
        fun _ => true, "", "mtime", 100⟩ "/s" "/t" ⟨2024, 1, 2, 3, 4, 5⟩
      (fun p => if p = "/s/a.txt" then some ⟨some "S", 10, 1⟩
        else if p = "/t/a.txt" then some ⟨some "T", 5, 1⟩ else none)
      (fun _ => none) "/s/a.txt").fs "/t/a_v1.txt" = some ⟨some "S", 10, 1⟩ := by
  have h := claim_C7_keep_both_versioned
    ⟨id, SyncMode.one_way, ConflictStrategy.keep_both, none,
      fun _ => true, "", "mtime", 100⟩ "/s" "/t" ⟨2024, 1, 2, 3, 4, 5⟩
    (fun p => if p = "/s/a.txt" then some ⟨some "S", 10, 1⟩
      else if p = "/t/a.txt" then some ⟨some "T", 5, 1⟩ else none)
    (fun _ => none) "/s/a.txt" 1
    (by decide) rfl rfl (by decide) ⟨"S", rfl⟩ (le_refl 1) (by decide)
    (fun k hk hk' => absurd (Nat.lt_of_le_of_lt hk hk') (lt_irrefl 1))
    (by decide) (by decide)
  exact ⟨h.2.1, h.2.2.1⟩

end SmartBackup
